import Mathlib

set_option linter.unusedVariables false

/-!
Verification development for the Aura repository: a reactive runtime
(signal graph, `src/runtime/signal.ts`) and a compiler pipeline
(lexer, parser, semantic analyzer, code generator, `src/compiler`),
plus a token-based source formatter (`src/cli/formatter.ts`).

Every definition is a shallow embedding of the corresponding TypeScript
source function, keeping its name and control structure.  JavaScript
features are rendered as follows: mutable module/instance state becomes
an explicit state record threaded through the functions; `Set` objects
whose live mutation during `forEach` is observable are rendered as
`List (Option Nat)` where `none` is the emptied slot a `delete` leaves
behind (ECMA-262 `Set` iteration semantics: `delete` empties the slot
in place, `add` of an absent value appends at the end, and `forEach`
walks the underlying entry list by index, so an element deleted and
re-added during iteration is visited again); unbounded loops and
recursion take a fuel argument and return `none` on exhaustion, so
`none` for every fuel means the JavaScript program does not terminate.
-/

namespace Aura

/-! ## Runtime signal graph (src/runtime/signal.ts)

Signals hold `JSVal` values (`undef` is JavaScript `undefined`, the
uninitialized placeholder `createComputed` starts from).  Equality of
`JSVal` models `Object.is`; on integers (the only values the claims
use) `Object.is` coincides with decidable equality.

Effect bodies are closures in the source.  They are embedded as lists
of `Act` actions interpreted against the runtime state: `read`
re-creates `signal()` (a tracked read), `write` re-creates
`signal.set(v)`, `compute dst srcs f` re-creates the body
`setSignal(fn())` that `createComputed` installs, for an `fn` that
performs tracked reads of the signals `srcs` and combines their values
with `f`, and `batchActs` re-creates `batch(() => ...)`.  Bodies
expressible this way never return a function, so the `cleanup` slot of
an effect is constantly `undefined` and is omitted from the state, as
is `effectStack`, which the source pushes and pops but never reads. -/

inductive JSVal where
  | undef : JSVal
  | num : Int → JSVal
deriving DecidableEq, Repr

inductive Act where
  | read : Nat → Act
  | write : Nat → JSVal → Act
  | compute : Nat → List Nat → (List JSVal → JSVal) → Act
  | batchActs : List Act → Act

/-- Effect environment: effect id ↦ the body installed for it
(the closure passed to `new Effect(fn)`). -/
abbrev Defs := Nat → List Act

/-- The mutable runtime state: per-signal current values and subscriber
sets (`SignalNode.value`, `SignalNode.subscribers`), per-effect
dependency sets, running flags and an instrumentation counter of body
invocations (`Effect.dependencies`, `Effect.isRunning`), and the
module-level `currentEffect`, `batchDepth` and `pendingEffects`. -/
structure RT where
  values : Nat → JSVal
  subs : Nat → List (Option Nat)
  deps : Nat → List Nat
  running : Nat → Bool
  runCount : Nat → Nat
  current : Option Nat
  batchDepth : Nat
  pending : List Nat

/-- Pointwise update of a function-valued state field. -/
def upd {α : Type} (f : Nat → α) (i : Nat) (v : α) : Nat → α :=
  fun j => if j = i then v else f j

@[simp] theorem upd_same {α : Type} (f : Nat → α) (i : Nat) (v : α) :
    upd f i v i = v := by simp [upd]

@[simp] theorem upd_other {α : Type} (f : Nat → α) (i j : Nat) (v : α)
    (h : j ≠ i) : upd f i v j = f j := by simp [upd, h]

/-- `Set.prototype.add` on a subscriber set: append the value if it is
not already present among the non-empty slots. -/
def jsAdd (e : Nat) (l : List (Option Nat)) : List (Option Nat) :=
  if some e ∈ l then l else l ++ [some e]

/-- `Set.prototype.delete` on a subscriber set: empty the slot in
place (the list keeps its length; `none` marks the emptied slot). -/
def jsDelete (e : Nat) (l : List (Option Nat)) : List (Option Nat) :=
  l.map fun x => if x = some e then none else x

/-- `Set.prototype.add` on the `pendingEffects` set (never mutated
while iterated, so a plain deduplicating append suffices). -/
def addPend (e : Nat) (l : List Nat) : List Nat :=
  if e ∈ l then l else l ++ [e]

/-- Deduplicating insert into an effect's dependency set. -/
def addDep (s : Nat) (l : List Nat) : List Nat :=
  if s ∈ l then l else l ++ [s]

/-- `SignalNode.get`: if there is a current effect, register the
subscription edge on both sides; the value returned is read off the
state separately (reads never change `values`). -/
def sread (s : Nat) (st : RT) : RT :=
  match st.current with
  | none => st
  | some e =>
      { st with
        subs := upd st.subs s (jsAdd e (st.subs s))
        deps := upd st.deps e (addDep s (st.deps e)) }

/-- The teardown at the start of `Effect.execute`:
`dependencies.forEach(dep => dep.unsubscribe(this)); dependencies.clear()`. -/
def teardown (e : Nat) (st : RT) : RT :=
  let st2 := (st.deps e).foldl
    (fun acc d => { acc with subs := upd acc.subs d (jsDelete e (acc.subs d)) }) st
  { st2 with deps := upd st2.deps e [] }

/-- The batching branch of `SignalNode.notify`: add every subscriber to
`pendingEffects` (skipping emptied slots). -/
def pendAll (s : Nat) (st : RT) : RT :=
  { st with
    pending := (st.subs s).foldl
      (fun p x => match x with | some e => addPend e p | none => p) st.pending }

/-- The tracked reads an embedded `createComputed` body performs before
combining the values: read each source signal in order, returning the
state after all subscriptions and the list of values read. -/
def readAll (srcs : List Nat) (st : RT) : RT × List JSVal :=
  match srcs with
  | [] => (st, [])
  | s :: rest =>
      let st2 := sread s st
      let p := readAll rest st2
      (p.1, st2.values s :: p.2)

mutual

/-- `SignalNode.set`: `Object.is` short-circuit, then update the value
and notify — deferred into `pendingEffects` when batching, otherwise
an immediate `subscribers.forEach(effect => effect.execute())` over
the live subscriber entry list. -/
def sset (defs : Defs) (fuel : Nat) (s : Nat) (v : JSVal) (st : RT) : Option RT :=
  if st.values s = v then some st
  else
    let st' := { st with values := upd st.values s v }
    if st'.batchDepth > 0 then some (pendAll s st')
    else
      match fuel with
      | 0 => none
      | f + 1 => notifyLoop defs f s 0 st'

/-- The non-batched `subscribers.forEach` of `SignalNode.notify`,
walking the live entry list by index: slots appended during the walk
are visited, emptied slots are skipped. -/
def notifyLoop (defs : Defs) (fuel : Nat) (s : Nat) (i : Nat) (st : RT) : Option RT :=
  if h : i < (st.subs s).length then
    match fuel with
    | 0 => none
    | f + 1 =>
        match (st.subs s).get ⟨i, h⟩ with
        | none => notifyLoop defs f s (i + 1) st
        | some e =>
            match execute defs f e st with
            | none => none
            | some st2 => notifyLoop defs f s (i + 1) st2
  else some st

/-- `Effect.execute`: no-op when already running, else tear down all
dependency edges, install itself as the current effect, run the body,
and restore the previous context.  `runCount` counts body invocations. -/
def execute (defs : Defs) (fuel : Nat) (e : Nat) (st : RT) : Option RT :=
  if st.running e then some st
  else
    let st1 := teardown e st
    let prev := st1.current
    let st2 := { st1 with
      current := some e
      running := upd st1.running e true
      runCount := upd st1.runCount e (st1.runCount e + 1) }
    match fuel with
    | 0 => none
    | f + 1 =>
        match runActs defs f (defs e) st2 with
        | none => none
        | some st3 =>
            some { st3 with
              running := upd st3.running e false
              current := prev }

/-- Interpret an effect body (or a batch callback) action by action. -/
def runActs (defs : Defs) (fuel : Nat) (acts : List Act) (st : RT) : Option RT :=
  match acts with
  | [] => some st
  | a :: rest =>
      match fuel with
      | 0 => none
      | f + 1 =>
          match runAct defs f a st with
          | none => none
          | some st2 => runActs defs f rest st2

/-- Interpret one action. -/
def runAct (defs : Defs) (fuel : Nat) (a : Act) (st : RT) : Option RT :=
  match a with
  | .read s => some (sread s st)
  | .write s v =>
      match fuel with
      | 0 => none
      | f + 1 => sset defs f s v st
  | .compute dst srcs f =>
      let p := readAll srcs st
      match fuel with
      | 0 => none
      | fu + 1 => sset defs fu dst (f p.2) p.1
  | .batchActs inner =>
      match fuel with
      | 0 => none
      | f + 1 =>
          let st1 := { st with batchDepth := st.batchDepth + 1 }
          match runActs defs f inner st1 with
          | none => none
          | some st2 =>
              let st3 := { st2 with batchDepth := st2.batchDepth - 1 }
              if st3.batchDepth = 0 then
                flushLoop defs f st3.pending { st3 with pending := [] }
              else some st3

/-- The flush at batch exit: `Array.from(pendingEffects)` snapshots the
set, `pendingEffects.clear()`, then `effects.forEach(e => e.execute())`
over the snapshot array. -/
def flushLoop (defs : Defs) (fuel : Nat) (effs : List Nat) (st : RT) : Option RT :=
  match effs with
  | [] => some st
  | e :: rest =>
      match fuel with
      | 0 => none
      | f + 1 =>
          match execute defs f e st with
          | none => none
          | some st2 => flushLoop defs f rest st2

end

/-- `signal.peek()`: the current value, never tracking. -/
def peek (s : Nat) (st : RT) : JSVal := st.values s

/-! ### Unfolding equations for the mutual interpreter

The mutual fueled functions are compiled by well-founded recursion, so
their one-step unfoldings are proved once here and used as rewrite
rules below. -/

theorem runActs_nil (defs : Defs) (fuel : Nat) (st : RT) :
    runActs defs fuel [] st = some st := by
  conv_lhs => unfold runActs

theorem runActs_cons (defs : Defs) (f : Nat) (a : Act) (rest : List Act) (st : RT) :
    runActs defs (f + 1) (a :: rest) st
      = match runAct defs f a st with
        | none => none
        | some st2 => runActs defs f rest st2 := by
  conv_lhs => unfold runActs

theorem runAct_read (defs : Defs) (fuel s : Nat) (st : RT) :
    runAct defs fuel (Act.read s) st = some (sread s st) := by
  conv_lhs => unfold runAct

theorem runAct_write (defs : Defs) (f s : Nat) (v : JSVal) (st : RT) :
    runAct defs (f + 1) (Act.write s v) st = sset defs f s v st := by
  conv_lhs => unfold runAct

theorem runAct_compute (defs : Defs) (f dst : Nat) (srcs : List Nat)
    (g : List JSVal → JSVal) (st : RT) :
    runAct defs (f + 1) (Act.compute dst srcs g) st
      = sset defs f dst (g (readAll srcs st).2) (readAll srcs st).1 := by
  conv_lhs => unfold runAct

theorem runAct_batch (defs : Defs) (f : Nat) (inner : List Act) (st : RT) :
    runAct defs (f + 1) (Act.batchActs inner) st
      = (match runActs defs f inner { st with batchDepth := st.batchDepth + 1 } with
         | none => none
         | some st2 =>
             let st3 : RT := { st2 with batchDepth := st2.batchDepth - 1 }
             if st3.batchDepth = 0 then
               flushLoop defs f st3.pending { st3 with pending := [] }
             else some st3) := by
  conv_lhs => unfold runAct

theorem flushLoop_nil (defs : Defs) (fuel : Nat) (st : RT) :
    flushLoop defs fuel [] st = some st := by
  conv_lhs => unfold flushLoop

theorem flushLoop_cons (defs : Defs) (f e : Nat) (rest : List Nat) (st : RT) :
    flushLoop defs (f + 1) (e :: rest) st
      = match execute defs f e st with
        | none => none
        | some st2 => flushLoop defs f rest st2 := by
  conv_lhs => unfold flushLoop

theorem sset_eq_val (defs : Defs) (fuel s : Nat) (v : JSVal) (st : RT)
    (h : st.values s = v) : sset defs fuel s v st = some st := by
  conv_lhs => unfold sset
  simp [h]

theorem sset_batched (defs : Defs) (fuel s : Nat) (v : JSVal) (st : RT)
    (hne : st.values s ≠ v) (hb : 0 < st.batchDepth) :
    sset defs fuel s v st
      = some (pendAll s { st with values := upd st.values s v }) := by
  conv_lhs => unfold sset
  simp [hne, hb]

theorem sset_unbatched (defs : Defs) (f s : Nat) (v : JSVal) (st : RT)
    (hne : st.values s ≠ v) (hb : st.batchDepth = 0) :
    sset defs (f + 1) s v st
      = notifyLoop defs f s 0 { st with values := upd st.values s v } := by
  conv_lhs => unfold sset
  simp [hne, hb]

theorem notifyLoop_end (defs : Defs) (fuel s i : Nat) (st : RT)
    (h : ¬ i < (st.subs s).length) : notifyLoop defs fuel s i st = some st := by
  conv_lhs => unfold notifyLoop
  rw [dif_neg h]

theorem notifyLoop_get (defs : Defs) (f s i : Nat) (st : RT)
    (h : i < (st.subs s).length) (e : Nat)
    (hget : (st.subs s).get ⟨i, h⟩ = some e) :
    notifyLoop defs (f + 1) s i st
      = match execute defs f e st with
        | none => none
        | some st2 => notifyLoop defs f s (i + 1) st2 := by
  conv_lhs => unfold notifyLoop
  rw [dif_pos h]
  simp only [hget]

theorem notifyLoop_skip (defs : Defs) (f s i : Nat) (st : RT)
    (h : i < (st.subs s).length)
    (hget : (st.subs s).get ⟨i, h⟩ = none) :
    notifyLoop defs (f + 1) s i st = notifyLoop defs f s (i + 1) st := by
  conv_lhs => unfold notifyLoop
  rw [dif_pos h]
  simp only [hget]

theorem execute_running (defs : Defs) (fuel e : Nat) (st : RT)
    (h : st.running e = true) : execute defs fuel e st = some st := by
  conv_lhs => unfold execute
  simp [h]

theorem execute_succ (defs : Defs) (f e : Nat) (st : RT)
    (hrun : st.running e = false) :
    execute defs (f + 1) e st
      = (let st1 := teardown e st
         let st2 : RT := { st1 with
           current := some e
           running := upd st1.running e true
           runCount := upd st1.runCount e (st1.runCount e + 1) }
         match runActs defs f (defs e) st2 with
         | none => none
         | some st3 =>
             some { st3 with
               running := upd st3.running e false
               current := st1.current }) := by
  conv_lhs => unfold execute
  simp only [hrun, Bool.false_eq_true, if_false]

theorem execute_zero (defs : Defs) (e : Nat) (st : RT)
    (hrun : st.running e = false) : execute defs 0 e st = none := by
  conv_lhs => unfold execute
  simp [hrun]

/-! ### Helper lemmas about the subscriber-set primitives -/

theorem jsAdd_not_mem {e : Nat} {l : List (Option Nat)} (h : some e ∉ l) :
    jsAdd e l = l ++ [some e] := by simp [jsAdd, h]

theorem jsDelete_replicate_concat (e i : Nat) :
    jsDelete e (List.replicate i none ++ [some e]) = List.replicate (i + 1) none := by
  simp [jsDelete, List.map_replicate, List.replicate_succ']

theorem jsAdd_replicate (e k : Nat) :
    jsAdd e (List.replicate k none) = List.replicate k none ++ [some e] := by
  apply jsAdd_not_mem
  simp [List.mem_replicate]

/-- `SignalNode.set` with an `Object.is`-equal value is a no-op: the
value is unchanged and no subscriber is notified (the state is
returned untouched, whatever the fuel). -/
theorem sset_same_value_noop (defs : Defs) (fuel s : Nat) (v : JSVal) (st : RT)
    (h : st.values s = v) : sset defs fuel s v st = some st := by
  simp [sset, h]

/-! ### Claim C1: non-batched notification of a subscribed effect -/

/-- The loop invariant of the divergence: after `i` visits of the
notify loop over signal `s`, the live subscriber entry list of `s`
consists of `i` emptied slots followed by the re-added effect `e`,
whose dependency set has been rebuilt to `[s]` and which is not
running. -/
def C1Inv (s e i : Nat) (st : RT) : Prop :=
  st.subs s = List.replicate i none ++ [some e] ∧
  st.deps e = [s] ∧ st.running e = false

/-- The state one full visit of the notify loop produces in the C1
scenario: teardown, context switch, tracked re-read of `s`, context
restore — written out explicitly so it can serve as the witness of the
step characterization below. -/
def C1step (s e : Nat) (st : RT) : RT :=
  let stA : RT := { st with subs := upd st.subs s (jsDelete e (st.subs s)) }
  let st1 : RT := { stA with deps := upd stA.deps e [] }
  let st2 : RT := { st1 with
    current := some e
    running := upd st1.running e true
    runCount := upd st1.runCount e (st1.runCount e + 1) }
  let st3 : RT := { st2 with
    subs := upd st2.subs s (jsAdd e (st2.subs s))
    deps := upd st2.deps e (addDep s (st2.deps e)) }
  { st3 with running := upd st3.running e false, current := st.current }

theorem runActs_zero (defs : Defs) (a : Act) (rest : List Act) (st : RT) :
    runActs defs 0 (a :: rest) st = none := by
  conv_lhs => unfold runActs

theorem notifyLoop_zero (defs : Defs) (s i : Nat) (st : RT)
    (h : i < (st.subs s).length) : notifyLoop defs 0 s i st = none := by
  conv_lhs => unfold notifyLoop
  rw [dif_pos h]

theorem C1_execute_eq (defs : Defs) (s e h : Nat) (st : RT)
    (hdefs : defs e = [Act.read s]) (hdeps : st.deps e = [s])
    (hrun : st.running e = false) :
    execute defs (h + 2) e st = some (C1step s e st) := by
  rw [execute_succ defs (h + 1) e st hrun]
  simp only [teardown, hdeps, List.foldl_cons, List.foldl_nil, hdefs]
  rw [runActs_cons, runAct_read]
  simp only [runActs_nil]
  simp [sread, C1step, teardown, hdeps]

theorem C1step_inv (s e i : Nat) (st : RT) (hinv : C1Inv s e i st) :
    C1Inv s e (i + 1) (C1step s e st) := by
  obtain ⟨hsubs, hdeps, hrun⟩ := hinv
  refine ⟨?_, ?_, ?_⟩
  · simp [C1step, hsubs, jsDelete_replicate_concat, jsAdd_replicate]
  · simp [C1step, addDep]
  · simp [C1step]

theorem C1_notifyLoop_diverges (defs : Defs) (s e : Nat)
    (hdefs : defs e = [Act.read s]) :
    ∀ (fuel i : Nat) (st : RT), C1Inv s e i st →
      notifyLoop defs fuel s i st = none := by
  intro fuel
  induction fuel with
  | zero =>
      intro i st hinv
      have hlen : i < (st.subs s).length := by
        rw [hinv.1]; simp
      exact notifyLoop_zero defs s i st hlen
  | succ f ih =>
      intro i st hinv
      have hlen : i < (st.subs s).length := by
        rw [hinv.1]; simp
      have hget : (st.subs s).get ⟨i, hlen⟩ = some e := by
        simp only [List.get_eq_getElem]
        rw [List.getElem_of_eq hinv.1]
        rw [List.getElem_append_right (by simp)]
        simp
      rw [notifyLoop_get defs f s i st hlen e hget]
      match f, ih with
      | 0, _ => rw [execute_zero defs e st hinv.2.2]
      | 1, _ =>
          rw [execute_succ defs 0 e st hinv.2.2]
          simp only [hdefs]
          rw [runActs_zero]
      | g + 2, ih =>
          rw [C1_execute_eq defs s e g st hdefs hinv.2.1 hinv.2.2]
          exact ih (i + 1) (C1step s e st) (C1step_inv s e i st hinv)

/-- Claim C1 (code bug): for a signal `s` whose single subscriber is an
effect `e` whose body reads `s` (exactly the state `createSignal` +
`createEffect(() => { s(); })` leaves behind), a non-batched
`s.set(v)` with a not-identity-equal `v` never terminates: the
`subscribers.forEach` in `SignalNode.notify` walks the live entry
list, `Effect.execute` deletes `e` from it and the body's tracked read
appends `e` again behind the iteration cursor, so `e` is visited and
re-executed forever.  Formally: the faithful interpreter returns
`none` (fuel exhaustion) for every fuel, i.e. the subscriber effect is
not invoked "exactly once" as the claim states — the write call never
returns. -/
theorem claim_C1 (defs : Defs) (s e : Nat) (v : JSVal) (st : RT)
    (hdefs : defs e = [Act.read s])
    (hsubs : st.subs s = [some e]) (hdeps : st.deps e = [s])
    (hrun : st.running e = false) (hbatch : st.batchDepth = 0)
    (hne : st.values s ≠ v) :
    ∀ fuel : Nat, sset defs fuel s v st = none := by
  intro fuel
  match fuel with
  | 0 =>
      conv_lhs => unfold sset
      simp [hne, hbatch]
  | f + 1 =>
      have hinv : C1Inv s e 0 ({ st with values := upd st.values s v }) := by
        refine ⟨?_, hdeps, hrun⟩
        simpa using hsubs
      rw [sset_unbatched defs f s v st hne hbatch]
      exact C1_notifyLoop_diverges defs s e hdefs f 0 _ hinv

/-- Witness for C1 at a fully concrete input: signal `0` holding `0`,
effect `0` with body reading signal `0`, already subscribed; the write
`set(1)` exhausts any fuel (shown here for fuel 97). -/
def C1defs : Defs := fun e => if e = 0 then [Act.read 0] else []

def C1st : RT :=
  { values := fun s => if s = 0 then JSVal.num 0 else JSVal.undef
    subs := fun s => if s = 0 then [some 0] else []
    deps := fun e => if e = 0 then [0] else []
    running := fun _ => false
    runCount := fun _ => 0
    current := none
    batchDepth := 0
    pending := [] }

theorem claim_C1_witness : sset C1defs 97 0 (JSVal.num 1) C1st = none :=
  claim_C1 C1defs 0 0 (JSVal.num 1) C1st (by rfl) (by rfl) (by rfl) (by rfl)
    (by rfl) (by decide) 97

/-! ### Claim C3: re-entrancy suppression during effect execution -/

/-- Effect environment for C3: effect `0` reads signal `0` and then
writes `v` to it (`createEffect(() => { const x = s(); s.set(v); })`). -/
def C3defs (v : JSVal) : Defs :=
  fun x => if x = 0 then [Act.read 0, Act.write 0 v] else []

/-- The runtime state after `createSignal(v0)` and a first subscribed
run of the effect: signal `0` holds `v0` with subscriber effect `0`,
whose dependency set is `[0]` and whose body has run `r` times. -/
def C3st (v0 : JSVal) (r : Nat) : RT :=
  { values := fun x => if x = 0 then v0 else JSVal.undef
    subs := fun x => if x = 0 then [some 0] else []
    deps := fun x => if x = 0 then [0] else []
    running := fun _ => false
    runCount := fun x => if x = 0 then r else 0
    current := none
    batchDepth := 0
    pending := [] }

/-- Claim C3: an effect whose body writes (outside a batch) to a signal
it is subscribed to does not recursively re-enter its own execution:
the triggered notification visits the effect, but `Effect.execute`
returns immediately because `isRunning` is set, so the body runs
exactly once (`runCount` goes up by exactly 1), the written value
sticks, and the running flag is restored afterwards. -/
theorem claim_C3 (f r : Nat) (v0 v : JSVal) (hne : v0 ≠ v) :
    (execute (C3defs v) (f + 8) 0 (C3st v0 r)).map
        (fun st2 => (st2.runCount 0, st2.values 0, st2.running 0, st2.current))
      = some (r + 1, v, false, none) := by
  simp [execute, notifyLoop, sset, runActs, runAct, sread, teardown, pendAll,
    flushLoop, jsAdd, jsDelete, addDep, addPend, upd, C3defs, C3st, hne]

theorem claim_C3_witness :
    (execute (C3defs (JSVal.num 7)) 11 0 (C3st (JSVal.num 0) 1)).map
        (fun st2 => (st2.runCount 0, st2.values 0, st2.running 0, st2.current))
      = some (2, JSVal.num 7, false, none) :=
  claim_C3 3 1 (JSVal.num 0) (JSVal.num 7) (by decide)

/-! ### Claim C2: batching coalesces writes; nested batches flush only
at depth 0 -/

/-- Effect environment for C2: effect `0` reads signals `0` and `1`. -/
def C2defs : Defs :=
  fun x => if x = 0 then [Act.read 0, Act.read 1] else []

/-- State with signals `0`, `1` holding `a0`, `a1`, both subscribed to
by effect `0` (which has run `r` times), at batch depth `d`. -/
def C2st (a0 a1 : JSVal) (r d : Nat) : RT :=
  { values := fun x => if x = 0 then a0 else if x = 1 then a1 else JSVal.undef
    subs := fun x => if x = 0 then [some 0] else if x = 1 then [some 0] else []
    deps := fun x => if x = 0 then [0, 1] else []
    running := fun _ => false
    runCount := fun x => if x = 0 then r else 0
    current := none
    batchDepth := d
    pending := [] }

/-- Claim C2: (1) two writes to two different signals inside one batch,
both read by the same single effect, execute that effect exactly once,
at batch exit (`runCount` +1, both values updated, pending set drained);
(2) the same holds when the second write sits in a nested batch — the
inner exit (depth 1 ≠ 0) does not flush, only the outermost exit does;
(3) a batch that exits at depth ≥ 1 executes nothing: the effect count
is unchanged and the written signal
s subscriber merely sits in the
pending set. -/
theorem claim_C2 (f r d : Nat) (a0 a1 v0 v1 : JSVal)
    (hne0 : a0 ≠ v0) (hne1 : a1 ≠ v1) :
    ((runAct C2defs (f + 20) (Act.batchActs [Act.write 0 v0, Act.write 1 v1])
        (C2st a0 a1 r 0)).map
        (fun st2 => (st2.runCount 0, st2.values 0, st2.values 1,
          st2.batchDepth, st2.pending))
      = some (r + 1, v0, v1, 0, [])) ∧
    ((runAct C2defs (f + 20)
        (Act.batchActs [Act.write 0 v0, Act.batchActs [Act.write 1 v1]])
        (C2st a0 a1 r 0)).map
        (fun st2 => (st2.runCount 0, st2.values 0, st2.values 1,
          st2.batchDepth, st2.pending))
      = some (r + 1, v0, v1, 0, [])) ∧
    ((runAct C2defs (f + 20) (Act.batchActs [Act.write 1 v1])
        (C2st a0 a1 r (d + 1))).map
        (fun st2 => (st2.runCount 0, st2.values 1, st2.batchDepth, st2.pending))
      = some (r, v1, d + 1, [0])) := by
  refine ⟨?_, ?_, ?_⟩ <;>
    simp [execute, notifyLoop, sset, runActs, runAct, sread, teardown, pendAll,
      flushLoop, jsAdd, jsDelete, addDep, addPend, upd, C2defs, C2st, hne0, hne1]

theorem claim_C2_witness :
    ((runAct C2defs 25 (Act.batchActs [Act.write 0 (JSVal.num 1), Act.write 1 (JSVal.num 2)])
        (C2st (JSVal.num 0) (JSVal.num 0) 1 0)).map
        (fun st2 => (st2.runCount 0, st2.values 0, st2.values 1,
          st2.batchDepth, st2.pending))
      = some (2, JSVal.num 1, JSVal.num 2, 0, [])) ∧
    ((runAct C2defs 25
        (Act.batchActs [Act.write 0 (JSVal.num 1), Act.batchActs [Act.write 1 (JSVal.num 2)]])
        (C2st (JSVal.num 0) (JSVal.num 0) 1 0)).map
        (fun st2 => (st2.runCount 0, st2.values 0, st2.values 1,
          st2.batchDepth, st2.pending))
      = some (2, JSVal.num 1, JSVal.num 2, 0, [])) ∧
    ((runAct C2defs 25 (Act.batchActs [Act.write 1 (JSVal.num 2)])
        (C2st (JSVal.num 0) (JSVal.num 0) 1 3)).map
        (fun st2 => (st2.runCount 0, st2.values 1, st2.batchDepth, st2.pending))
      = some (1, JSVal.num 2, 3, [0])) :=
  claim_C2 5 1 2 (JSVal.num 0) (JSVal.num 0) (JSVal.num 1) (JSVal.num 2)
    (by decide) (by decide)

/-! ### Claim C10: createComputed runs its function once, synchronously -/

@[simp] theorem sread_values (s : Nat) (st : RT) :
    (sread s st).values = st.values := by
  cases h : st.current <;> simp [sread, h]

@[simp] theorem sread_running (s : Nat) (st : RT) :
    (sread s st).running = st.running := by
  cases h : st.current <;> simp [sread, h]

@[simp] theorem sread_runCount (s : Nat) (st : RT) :
    (sread s st).runCount = st.runCount := by
  cases h : st.current <;> simp [sread, h]

@[simp] theorem sread_batchDepth (s : Nat) (st : RT) :
    (sread s st).batchDepth = st.batchDepth := by
  cases h : st.current <;> simp [sread, h]

@[simp] theorem sread_pending (s : Nat) (st : RT) :
    (sread s st).pending = st.pending := by
  cases h : st.current <;> simp [sread, h]

theorem sread_subs_other (s x : Nat) (st : RT) (hxs : x ≠ s) :
    (sread s st).subs x = st.subs x := by
  cases h : st.current <;> simp [sread, h, upd_other _ _ _ _ hxs]

theorem readAll_values (srcs : List Nat) (st : RT) :
    (readAll srcs st).1.values = st.values := by
  induction srcs generalizing st with
  | nil => simp [readAll]
  | cons s rest ih => simp only [readAll, ih, sread_values]

theorem readAll_vals (srcs : List Nat) (st : RT) :
    (readAll srcs st).2 = srcs.map st.values := by
  induction srcs generalizing st with
  | nil => simp [readAll]
  | cons s rest ih => simp only [readAll, List.map_cons, ih, sread_values]

theorem readAll_subs_not_mem (srcs : List Nat) (st : RT) (x : Nat)
    (hx : x ∉ srcs) : (readAll srcs st).1.subs x = st.subs x := by
  induction srcs generalizing st with
  | nil => simp [readAll]
  | cons s rest ih =>
      simp only [readAll]
      rw [ih _ (fun h => hx (List.mem_cons_of_mem s h))]
      exact sread_subs_other s x st (fun h => hx (h ▸ List.mem_cons_self s rest))

theorem readAll_running (srcs : List Nat) (st : RT) :
    (readAll srcs st).1.running = st.running := by
  induction srcs generalizing st with
  | nil => simp [readAll]
  | cons s rest ih => simp only [readAll, ih, sread_running]

theorem readAll_runCount (srcs : List Nat) (st : RT) :
    (readAll srcs st).1.runCount = st.runCount := by
  induction srcs generalizing st with
  | nil => simp [readAll]
  | cons s rest ih => simp only [readAll, ih, sread_runCount]

theorem readAll_batchDepth (srcs : List Nat) (st : RT) :
    (readAll srcs st).1.batchDepth = st.batchDepth := by
  induction srcs generalizing st with
  | nil => simp [readAll]
  | cons s rest ih => simp only [readAll, ih, sread_batchDepth]

/-- Claim C10: `createComputed(fn)` executes `fn` exactly once,
synchronously, during creation (`effect.execute()` is called before
`createComputed` returns), and stores its result in the fresh backing
signal, so an immediate read or `peek` returns the value `fn` computed
from the signal values current at creation time.  The hypotheses are
exactly the state `createComputed` sets up before calling
`effect.execute()`: a fresh effect `e` (not running, no dependencies)
whose body performs the tracked reads of `srcs` and writes
`g`-combined result into the fresh backing signal `dst` (initialized
to `undefined`, no subscribers, not read by `fn` itself). -/
theorem claim_C10 (defs : Defs) (f e dst : Nat) (srcs : List Nat)
    (g : List JSVal → JSVal) (st : RT)
    (hdefs : defs e = [Act.compute dst srcs g])
    (hrun : st.running e = false) (hdeps : st.deps e = [])
    (hsubs : st.subs dst = []) (hval : st.values dst = JSVal.undef)
    (hmem : dst ∉ srcs) (hb : st.batchDepth = 0) :
    (execute defs (f + 4) e st).map
        (fun st2 => (st2.values dst, peek dst st2, st2.runCount e))
      = some (g (srcs.map st.values), g (srcs.map st.values), st.runCount e + 1) := by
  rw [execute_succ defs (f + 3) e st hrun]
  simp only [teardown, hdeps, List.foldl_nil, hdefs]
  rw [runActs_cons, runAct_compute]
  have hvals : (readAll srcs { st with
      deps := upd st.deps e []
      current := some e
      running := upd st.running e true
      runCount := upd st.runCount e (st.runCount e + 1) } : RT × List JSVal).2
      = srcs.map st.values := by
    rw [readAll_vals]
  set stb : RT := { st with
      deps := upd st.deps e []
      current := some e
      running := upd st.running e true
      runCount := upd st.runCount e (st.runCount e + 1) } with hstb
  have hv2 : (readAll srcs stb).1.values dst = JSVal.undef := by
    rw [readAll_values]
    exact hval
  have hs2 : (readAll srcs stb).1.subs dst = [] := by
    rw [readAll_subs_not_mem _ _ _ hmem]
    exact hsubs
  have hb2 : (readAll srcs stb).1.batchDepth = 0 := by
    rw [readAll_batchDepth]
    exact hb
  have hrc : (readAll srcs stb).1.runCount e = st.runCount e + 1 := by
    rw [readAll_runCount]
    simp [hstb]
  by_cases hg : g (srcs.map st.values) = JSVal.undef
  · rw [hvals, sset_eq_val _ _ _ _ _ (by rw [hv2, hg])]
    simp [runActs_nil, peek, hv2, hg, hrc]
  · rw [hvals]
    rw [sset_unbatched defs f dst (g (srcs.map st.values)) _ (by rw [hv2]; exact fun h => hg h.symm) hb2]
    rw [notifyLoop_end _ _ _ _ _ (by simp [hs2])]
    simp [runActs_nil, peek, hrc]

/-- Witness state for C10: signals 0, 1 hold 3 and 4, signal 5 is the
fresh backing signal, effect 9 computes their sum. -/
def C10g : List JSVal → JSVal :=
  fun vs => match vs with
    | [JSVal.num a, JSVal.num b] => JSVal.num (a + b)
    | _ => JSVal.undef

def C10defs : Defs := fun x => if x = 9 then [Act.compute 5 [0, 1] C10g] else []

def C10st : RT :=
  { values := fun x => if x = 0 then JSVal.num 3 else if x = 1 then JSVal.num 4 else JSVal.undef
    subs := fun _ => []
    deps := fun _ => []
    running := fun _ => false
    runCount := fun _ => 0
    current := none
    batchDepth := 0
    pending := [] }

theorem claim_C10_witness :
    (execute C10defs 9 9 C10st).map
        (fun st2 => (st2.values 5, peek 5 st2, st2.runCount 9))
      = some (JSVal.num 7, JSVal.num 7, 1) := by
  have h := claim_C10 C10defs 5 9 5 [0, 1] C10g C10st rfl rfl rfl rfl rfl
    (by decide) rfl
  simpa [C10g, C10st] using h

/-! ## Lexer (src/compiler/lexer.ts)

Tokens carry their text as `List Char`; the scanner state keeps the
remaining input as a `List Char` suffix (the source tracks an absolute
`position`; only the suffix it denotes matters).  The source field
`pendingDedents` is declared but never read or written elsewhere and
is omitted.  The main scan loop advances at least one character per
iteration, which is proved below and makes `tokenize` a total
function — the model-level rendering of "the lexer never aborts
early". -/

inductive TokenType where
  | COMPONENT | STATE | COMPUTED | EFFECT | ON | ANIMATE | WHEN | EACH | SLOT | EMIT
  | ROLE | LABEL | DESCRIBE | SPACE | STYLE
  | IDENTIFIER | STRING | NUMBER | BOOLEAN
  | LBRACE | RBRACE | LPAREN | RPAREN | LBRACKET | RBRACKET
  | COLON | SEMICOLON | COMMA | DOT | ARROW | EQUALS
  | PLUS | MINUS | STAR | SLASH | BANG | LT | GT | LE | GE | EQ | NE | AND | OR | QUESTION
  | NEWLINE | INDENT | DEDENT | EOF | ILLEGAL
deriving DecidableEq, Repr

structure Token where
  type : TokenType
  value : List Char
  line : Nat
  column : Nat
deriving DecidableEq, Repr

structure LexerError where
  message : List Char
  line : Nat
  column : Nat
deriving DecidableEq, Repr

def KEYWORDS (s : List Char) : Option TokenType :=
  if s = "component".data then some .COMPONENT
  else if s = "state".data then some .STATE
  else if s = "computed".data then some .COMPUTED
  else if s = "effect".data then some .EFFECT
  else if s = "on".data then some .ON
  else if s = "animate".data then some .ANIMATE
  else if s = "when".data then some .WHEN
  else if s = "each".data then some .EACH
  else if s = "slot".data then some .SLOT
  else if s = "emit".data then some .EMIT
  else if s = "role".data then some .ROLE
  else if s = "label".data then some .LABEL
  else if s = "describe".data then some .DESCRIBE
  else if s = "space".data then some .SPACE
  else if s = "style".data then some .STYLE
  else if s = "true".data then some .BOOLEAN
  else if s = "false".data then some .BOOLEAN
  else none

def isLetter (c : Char) : Bool :=
  (('a' ≤ c) && (c ≤ 'z')) || (('A' ≤ c) && (c ≤ 'Z'))

def isDigit (c : Char) : Bool :=
  ('0' ≤ c) && (c ≤ '9')

def isAlphanumeric (c : Char) : Bool :=
  isLetter c || isDigit c

/-- The scanner state (class fields of `Lexer`). -/
structure Lexer where
  rest : List Char
  line : Nat
  column : Nat
  indentStack : List Nat
  tokens : List Token
  errors : List LexerError
deriving Repr

def initLexer (input : List Char) : Lexer :=
  { rest := input, line := 1, column := 1, indentStack := [0]
    tokens := [], errors := [] }

def addToken (st : Lexer) (type : TokenType) (value : List Char) : Lexer :=
  { st with tokens := st.tokens ++ [⟨type, value, st.line, st.column⟩] }

def addTokenAt (st : Lexer) (type : TokenType) (value : List Char) (col : Nat) : Lexer :=
  { st with tokens := st.tokens ++ [⟨type, value, st.line, col⟩] }

def isWsNoNewline (c : Char) : Bool :=
  c = ' ' || c = '\t' || c = '\r'

def skipWhitespaceExceptNewline (st : Lexer) : Lexer :=
  { st with
    rest := st.rest.dropWhile isWsNoNewline
    column := st.column + (st.rest.takeWhile isWsNoNewline).length }

def skipComment (st : Lexer) : Lexer :=
  { st with
    rest := st.rest.dropWhile (fun c => c ≠ '\n')
    column := st.column + (st.rest.takeWhile (fun c => c ≠ '\n')).length }

/-- `measureIndent`: consume spaces/tabs (tab counts 4 columns of
indent, 1 column of position); returns (indent width, chars consumed,
remaining input). -/
def measureIndent : List Char → Nat × Nat × List Char
  | c :: rest =>
      if c = ' ' then
        let p := measureIndent rest
        (p.1 + 1, p.2.1 + 1, p.2.2)
      else if c = '\t' then
        let p := measureIndent rest
        (p.1 + 4, p.2.1 + 1, p.2.2)
      else (0, 0, c :: rest)
  | [] => (0, 0, [])

/-- The dedent-popping loop of `handleNewline`: pop while the stack
has more than the base entry and its top exceeds the new width; one
DEDENT is emitted per pop (all at the same position, so the emitted
tokens are a `replicate`).  The stack is kept top-first; the result is
(new stack, number of pops). -/
def dedentLoopP (w : Nat) : List Nat → List Nat × Nat
  | t :: t2 :: rest =>
      if t > w then
        let p := dedentLoopP w (t2 :: rest)
        (p.1, p.2 + 1)
      else (t :: t2 :: rest, 0)
  | s => (s, 0)

def handleNewline (st : Lexer) : Lexer :=
  let st1 := addToken st .NEWLINE ['\n']
  let st2 := { st1 with rest := st1.rest.tail, line := st1.line + 1, column := 1 }
  let m := measureIndent st2.rest
  let indentLevel := m.1
  let st3 := { st2 with rest := m.2.2, column := st2.column + m.2.1 }
  let currentIndent := st3.indentStack.headD 0
  if indentLevel > currentIndent then
    addToken { st3 with indentStack := indentLevel :: st3.indentStack } .INDENT []
  else if indentLevel < currentIndent then
    let p := dedentLoopP indentLevel st3.indentStack
    let st4 := { st3 with
      indentStack := p.1
      tokens := st3.tokens ++ List.replicate p.2 ⟨.DEDENT, [], st3.line, st3.column⟩ }
    if st4.indentStack.headD 0 ≠ indentLevel then
      { st4 with errors := st4.errors ++
          [⟨"Indentation error: inconsistent indentation".data, st4.line, st4.column⟩] }
    else st4
  else st3

def readIdentifierOrKeyword (st : Lexer) : Lexer :=
  let value := st.rest.takeWhile (fun c => isAlphanumeric c || c = '_')
  let type := (KEYWORDS value).getD .IDENTIFIER
  { st with
    rest := st.rest.dropWhile (fun c => isAlphanumeric c || c = '_')
    column := st.column + value.length
    tokens := st.tokens ++ [⟨type, value, st.line, st.column⟩] }

def readNumber (st : Lexer) : Lexer :=
  let intPart := st.rest.takeWhile isDigit
  let rest1 := st.rest.dropWhile isDigit
  match rest1 with
  | d :: rest2 =>
      if d = '.' then
        let fracPart := rest2.takeWhile isDigit
        let value := intPart ++ '.' :: fracPart
        { st with
          rest := rest2.dropWhile isDigit
          column := st.column + value.length
          tokens := st.tokens ++ [⟨.NUMBER, value, st.line, st.column⟩] }
      else
        { st with
          rest := rest1
          column := st.column + intPart.length
          tokens := st.tokens ++ [⟨.NUMBER, intPart, st.line, st.column⟩] }
  | [] =>
      { st with
        rest := rest1
        column := st.column + intPart.length
        tokens := st.tokens ++ [⟨.NUMBER, intPart, st.line, st.column⟩] }

/-- The scan loop of `readString` after the opening quote: processes
escapes, stops at the matching quote; returns (translated value if the
closing quote was found, chars consumed, remaining input). -/
def readStringLoop (quote : Char) : List Char → Bool → List Char →
    Option (List Char) × Nat × List Char
  | [], _, _ => (none, 0, [])
  | c :: rest, escaped, acc =>
      if escaped then
        let mapped :=
          if c = 'n' then '\n'
          else if c = 't' then '\t'
          else if c = 'r' then '\r'
          else if c = '\\' then '\\'
          else if c = quote then quote
          else c
        let p := readStringLoop quote rest false (acc ++ [mapped])
        (p.1, p.2.1 + 1, p.2.2)
      else if c = '\\' then
        let p := readStringLoop quote rest true acc
        (p.1, p.2.1 + 1, p.2.2)
      else if c = quote then (some acc, 1, rest)
      else
        let p := readStringLoop quote rest false (acc ++ [c])
        (p.1, p.2.1 + 1, p.2.2)

def readString (st : Lexer) (quote : Char) : Lexer :=
  let startColumn := st.column
  let p := readStringLoop quote st.rest.tail false []
  match p.1 with
  | some value =>
      { st with
        rest := p.2.2
        column := st.column + 1 + p.2.1
        tokens := st.tokens ++ [⟨.STRING, value, st.line, startColumn⟩] }
  | none =>
      { st with
        rest := p.2.2
        column := st.column + 1 + p.2.1
        errors := st.errors ++ [⟨"Unterminated string".data, st.line, startColumn⟩] }

def twoCharOps (a b : Char) : Option TokenType :=
  if a = '=' && b = '=' then some .EQ
  else if a = '!' && b = '=' then some .NE
  else if a = '<' && b = '=' then some .LE
  else if a = '>' && b = '=' then some .GE
  else if a = '&' && b = '&' then some .AND
  else if a = '|' && b = '|' then some .OR
  else if a = '=' && b = '>' then some .ARROW
  else none

def singleCharOps (c : Char) : Option TokenType :=
  if c = '\x7b' then some .LBRACE
  else if c = '\x7d' then some .RBRACE
  else if c = '(' then some .LPAREN
  else if c = ')' then some .RPAREN
  else if c = '[' then some .LBRACKET
  else if c = ']' then some .RBRACKET
  else if c = ':' then some .COLON
  else if c = ';' then some .SEMICOLON
  else if c = ',' then some .COMMA
  else if c = '.' then some .DOT
  else if c = '=' then some .EQUALS
  else if c = '+' then some .PLUS
  else if c = '-' then some .MINUS
  else if c = '*' then some .STAR
  else if c = '/' then some .SLASH
  else if c = '!' then some .BANG
  else if c = '<' then some .LT
  else if c = '>' then some .GT
  else if c = '?' then some .QUESTION
  else none

/-- `readOperator`: greedy two-character match first, then single
character; `none` when the character is not an operator. -/
def readOperator (st : Lexer) : Option Lexer :=
  match st.rest with
  | a :: b :: rest =>
      match twoCharOps a b with
      | some t => some (addTokenAt { st with rest := rest, column := st.column + 2 }
          t [a, b] st.column)
      | none =>
          match singleCharOps a with
          | some t => some (addTokenAt { st with rest := b :: rest, column := st.column + 1 }
              t [a] st.column)
          | none => none
  | [a] =>
      match singleCharOps a with
      | some t => some (addTokenAt { st with rest := [], column := st.column + 1 }
          t [a] st.column)
      | none => none
  | [] => none

/-- The dispatch on the next character inside one iteration of the
`tokenize` while-loop (after non-newline whitespace has been skipped):
break at end of input, else newline / comment / identifier-or-keyword /
number / string / operator / illegal character. -/
def lexDispatch (st1 : Lexer) : Lexer :=
  match st1.rest with
  | [] => st1
  | c :: rest =>
      if c = '\n' then handleNewline st1
      else if c = '#' then skipComment st1
      else if isLetter c || c = '_' then readIdentifierOrKeyword st1
      else if isDigit c then readNumber st1
      else if c = '"' || c = '\x27' then readString st1 c
      else
        match readOperator st1 with
        | some st2 => st2
        | none =>
            { st1 with
              rest := rest
              column := st1.column + 1
              errors := st1.errors ++
                [⟨"Illegal character: ".data ++ [c], st1.line, st1.column⟩] }

/-- One iteration of the `tokenize` while-loop. -/
def lexStep (st : Lexer) : Lexer :=
  lexDispatch (skipWhitespaceExceptNewline st)

theorem measureIndent_rest_le (cs : List Char) :
    (measureIndent cs).2.2.length ≤ cs.length := by
  induction cs with
  | nil => simp [measureIndent]
  | cons c rest ih =>
      by_cases h1 : c = ' '
      · simp only [measureIndent, h1, if_true]
        exact le_trans ih (by simp)
      · by_cases h2 : c = '\t'
        · simp only [measureIndent, h1, h2, if_false, if_true]
          exact le_trans ih (by simp)
        · simp [measureIndent, h1, h2]

theorem readStringLoop_rest_le (quote : Char) (cs : List Char) :
    ∀ (esc : Bool) (acc : List Char),
      (readStringLoop quote cs esc acc).2.2.length ≤ cs.length := by
  induction cs with
  | nil => intro esc acc; simp [readStringLoop]
  | cons c rest ih =>
      intro esc acc
      by_cases h1 : esc
      · simp only [readStringLoop, h1, if_true]
        exact le_trans (ih false _) (by simp)
      · by_cases h2 : c = '\\'
        · simp only [readStringLoop, h1, h2, if_false, if_true]
          exact le_trans (ih true _) (by simp)
        · by_cases h3 : c = quote
          · subst h3
            simp only [readStringLoop, h1, h2, if_false, if_true]
            simp
          · simp only [readStringLoop, h1, h2, h3, if_false]
            exact le_trans (ih false _) (by simp)

theorem dropWhile_length_le {p : Char → Bool} (l : List Char) :
    (l.dropWhile p).length ≤ l.length :=
  (List.dropWhile_sublist _).length_le

theorem handleNewline_rest (st1 : Lexer) :
    (handleNewline st1).rest = (measureIndent st1.rest.tail).2.2 := by
  simp only [handleNewline, addToken]
  split
  · rfl
  · split
    · split <;> rfl
    · rfl

/-- Each dispatch branch consumes at least one character. -/
theorem lexDispatch_le (st1 : Lexer) (c : Char) (rest : List Char)
    (hr : st1.rest = c :: rest) :
    (lexDispatch st1).rest.length ≤ rest.length := by
  simp only [lexDispatch, hr]
  by_cases h1 : c = '\n'
  · simp only [h1, if_true]
    rw [handleNewline_rest, hr]
    exact measureIndent_rest_le rest
  · simp only [h1, if_false]
    by_cases h2 : c = '#'
    · subst h2
      simp only [if_true, skipComment, hr, List.dropWhile_cons]
      rw [if_pos (by decide)]
      exact dropWhile_length_le rest
    · simp only [h2, if_false]
      by_cases h3 : isLetter c || c = '_'
      · simp only [h3, if_true, readIdentifierOrKeyword, hr, List.dropWhile_cons]
        have hc : (isAlphanumeric c || c = '_') = true := by
          rcases Bool.or_eq_true_iff.mp h3 with hl | he
          · simp [isAlphanumeric, hl]
          · simp [he]
        rw [if_pos hc]
        exact dropWhile_length_le rest
      · simp only [h3, Bool.false_eq_true, if_false]
        by_cases h4 : isDigit c
        · simp only [h4, if_true, readNumber, hr, List.dropWhile_cons]
          rcases hdw : rest.dropWhile isDigit with _ | ⟨d, rest2⟩
          · simp
          · have hsub : rest2.length + 1 ≤ rest.length := by
              have := dropWhile_length_le (p := isDigit) rest
              rw [hdw] at this
              simpa using this
            simp only []
            by_cases hd : d = '.'
            · rw [if_pos hd]
              calc (rest2.dropWhile isDigit).length ≤ rest2.length :=
                    dropWhile_length_le rest2
                _ ≤ rest.length := by omega
            · rw [if_neg hd]
              simp only [List.length_cons]
              omega
        · simp only [h4, Bool.false_eq_true, if_false]
          by_cases h5 : c = '"' || c = '\x27'
          · simp only [h5, if_true, readString, hr, List.tail_cons]
            have hloop := readStringLoop_rest_le c rest false []
            split <;> simpa using hloop
          · simp only [h5, if_false]
            rcases hop : readOperator st1 with _ | st2
            · simp only [hop]
              simp
            · simp only [hop]
              unfold readOperator at hop
              rw [hr] at hop
              rcases rest with _ | ⟨b, rest3⟩
              · simp only [] at hop
                rcases hsc : singleCharOps c with _ | t <;> rw [hsc] at hop
                · simp at hop
                · simp only [Option.some.injEq] at hop
                  rw [← hop]
                  simp [addTokenAt]
              · simp only [] at hop
                rcases htc : twoCharOps c b with _ | t <;> rw [htc] at hop
                · rcases hsc : singleCharOps c with _ | t2 <;> rw [hsc] at hop
                  · simp at hop
                  · simp only [Option.some.injEq] at hop
                    rw [← hop]
                    simp [addTokenAt]
                · simp only [Option.some.injEq] at hop
                  rw [← hop]
                  simp [addTokenAt]

/-- Every iteration of the scan loop consumes at least one character. -/
theorem lexStep_shrinks (st : Lexer) (h : st.rest ≠ []) :
    (lexStep st).rest.length < st.rest.length := by
  have hbase : (skipWhitespaceExceptNewline st).rest.length ≤ st.rest.length := by
    simp only [skipWhitespaceExceptNewline]
    exact dropWhile_length_le st.rest
  have hpos : 0 < st.rest.length := List.length_pos.mpr h
  unfold lexStep
  rcases hws : (skipWhitespaceExceptNewline st).rest with _ | ⟨c, rest⟩
  · simp only [lexDispatch, hws]
    exact hpos
  · have := lexDispatch_le (skipWhitespaceExceptNewline st) c rest hws
    rw [hws] at hbase
    simp only [List.length_cons] at hbase
    omega

/-- The `tokenize` while-loop, with an explicit iteration bound so the
function reduces in the kernel.  Each iteration consumes at least one
character (`lexStep_shrinks`), so `rest.length` iterations always
reach end of input; `lexRun_complete` below proves the bound is never
hit early, i.e. this equals the unbounded source loop. -/
def lexRun : Nat → Lexer → Lexer
  | 0, st => st
  | f + 1, st => if st.rest = [] then st else lexRun f (lexStep st)

def lexLoop (st : Lexer) : Lexer := lexRun st.rest.length st

theorem lexRun_complete : ∀ (f : Nat) (st : Lexer),
    st.rest.length ≤ f → (lexRun f st).rest = [] := by
  intro f
  induction f with
  | zero =>
      intro st h
      simpa [lexRun] using List.length_eq_zero.mp (Nat.le_zero.mp h)
  | succ f ih =>
      intro st h
      by_cases hr : st.rest = []
      · simp [lexRun, hr]
      · simp only [lexRun, hr, if_false]
        exact ih _ (by have := lexStep_shrinks st hr; omega)

/-- The scan always reaches end of input. -/
theorem lexLoop_complete (st : Lexer) : (lexLoop st).rest = [] :=
  lexRun_complete _ _ le_rfl

/-- The dedent flush at end of input: one DEDENT per indent level still
open beyond the base (the loop pops until only the base entry remains,
emitting identical DEDENT tokens). -/
def flushDedents (st : Lexer) : Lexer :=
  { st with
    indentStack := st.indentStack.drop (st.indentStack.length - 1)
    tokens := st.tokens ++
      List.replicate (st.indentStack.length - 1) ⟨.DEDENT, [], st.line, st.column⟩ }

/-- `Lexer.tokenize`: scan to end of input, flush open indent levels as
DEDENTs, append EOF. -/
def tokenize (input : List Char) : Lexer :=
  let st := lexLoop (initLexer input)
  let st2 := flushDedents st
  addToken st2 .EOF []

/-- The trigger of the "inconsistent indentation" error, as a predicate
on the scanner state: the next character (after non-newline whitespace
is skipped) is a newline, the following line measures to an indent
width strictly below the current indent, and after the dedent pops the
remaining top still differs from that width — i.e. the dedented width
matches no entry remaining on the indentation stack. -/
def inconsistentHere (st : Lexer) : Bool :=
  match (skipWhitespaceExceptNewline st).rest with
  | c :: r =>
      if c = '\n' then
        decide ((measureIndent r).1 <
            (skipWhitespaceExceptNewline st).indentStack.headD 0 ∧
          (dedentLoopP (measureIndent r).1
              (skipWhitespaceExceptNewline st).indentStack).1.headD 0 ≠
            (measureIndent r).1)
      else false
  | [] => false

theorem lexStep_empty (st : Lexer) (h : st.rest = []) : lexStep st = st := by
  cases st
  simp_all [lexStep, skipWhitespaceExceptNewline, lexDispatch]

theorem inconsistentHere_empty (st : Lexer) (h : st.rest = []) :
    inconsistentHere st = false := by
  simp [inconsistentHere, skipWhitespaceExceptNewline, h]

theorem handleNewline_errors (st1 : Lexer) :
    ∃ t, (handleNewline st1).errors = st1.errors ++ t := by
  simp only [handleNewline, addToken]
  split
  · exact ⟨[], by simp⟩
  · split
    · split
      · exact ⟨[⟨"Indentation error: inconsistent indentation".data, _, _⟩], rfl⟩
      · exact ⟨[], by simp⟩
    · exact ⟨[], by simp⟩

theorem lexDispatch_errors (st1 : Lexer) :
    ∃ t, (lexDispatch st1).errors = st1.errors ++ t := by
  unfold lexDispatch
  rcases hr : st1.rest with _ | ⟨c, rest⟩
  · exact ⟨[], by simp⟩
  · simp only []
    by_cases h1 : c = '\n'
    · simp only [h1, if_true]
      exact handleNewline_errors st1
    · simp only [h1, if_false]
      by_cases h2 : c = '#'
      · simp only [h2, if_true, skipComment]
        exact ⟨[], by simp⟩
      · simp only [h2, if_false]
        by_cases h3 : isLetter c || c = '_'
        · simp only [h3, if_true, readIdentifierOrKeyword]
          exact ⟨[], by simp⟩
        · simp only [h3, Bool.false_eq_true, if_false]
          by_cases h4 : isDigit c
          · simp only [h4, if_true, readNumber]
            rcases hdw : st1.rest.dropWhile isDigit with _ | ⟨d, rest2⟩
            · exact ⟨[], by simp⟩
            · simp only []
              by_cases hd : d = '.'
              · rw [if_pos hd]
                exact ⟨[], by simp⟩
              · rw [if_neg hd]
                exact ⟨[], by simp⟩
          · simp only [h4, Bool.false_eq_true, if_false]
            by_cases h5 : c = '"' || c = '\x27'
            · simp only [h5, if_true, readString]
              split
              · exact ⟨[], by simp⟩
              · exact ⟨[⟨"Unterminated string".data, _, _⟩], rfl⟩
            · simp only [h5, if_false]
              rcases hop : readOperator st1 with _ | st2
              · simp only [hop]
                exact ⟨[⟨"Illegal character: ".data ++ [c], _, _⟩], rfl⟩
              · simp only [hop]
                unfold readOperator at hop
                rw [hr] at hop
                rcases rest with _ | ⟨b, rest3⟩
                · simp only [] at hop
                  rcases hsc : singleCharOps c with _ | t <;> rw [hsc] at hop
                  · simp at hop
                  · simp only [Option.some.injEq] at hop
                    rw [← hop]
                    exact ⟨[], by simp [addTokenAt]⟩
                · simp only [] at hop
                  rcases htc : twoCharOps c b with _ | t <;> rw [htc] at hop
                  · rcases hsc : singleCharOps c with _ | t2 <;> rw [hsc] at hop
                    · simp at hop
                    · simp only [Option.some.injEq] at hop
                      rw [← hop]
                      exact ⟨[], by simp [addTokenAt]⟩
                  · simp only [Option.some.injEq] at hop
                    rw [← hop]
                    exact ⟨[], by simp [addTokenAt]⟩

theorem lexStep_errors (st : Lexer) :
    ∃ t, (lexStep st).errors = st.errors ++ t := by
  unfold lexStep
  have h := lexDispatch_errors (skipWhitespaceExceptNewline st)
  simpa [skipWhitespaceExceptNewline] using h

theorem iterate_empty (n : Nat) (st : Lexer) (h : st.rest = []) :
    lexStep^[n] st = st := by
  induction n with
  | zero => rfl
  | succ m ih =>
      rw [Function.iterate_succ_apply, lexStep_empty st h, ih]

theorem iterate_errors (j : Nat) (st : Lexer) :
    ∃ t, (lexStep^[j] st).errors = st.errors ++ t := by
  induction j with
  | zero => exact ⟨[], by simp⟩
  | succ m ih =>
      obtain ⟨t1, h1⟩ := ih
      obtain ⟨t2, h2⟩ := lexStep_errors (lexStep^[m] st)
      refine ⟨t1 ++ t2, ?_⟩
      rw [Function.iterate_succ_apply', h2, h1, List.append_assoc]

theorem lexRun_eq_iterate : ∀ (f : Nat) (st : Lexer), ∃ j, lexRun f st = lexStep^[j] st := by
  intro f
  induction f with
  | zero => intro st; exact ⟨0, rfl⟩
  | succ f ih =>
      intro st
      by_cases hr : st.rest = []
      · exact ⟨0, by simp [lexRun, hr]⟩
      · obtain ⟨j, hj⟩ := ih (lexStep st)
        refine ⟨j + 1, ?_⟩
        rw [Function.iterate_succ_apply, ← hj]
        simp [lexRun, hr]

theorem lexStep_inconsistent (st : Lexer) (h : inconsistentHere st = true) :
    ∃ l c, (lexStep st).errors = st.errors ++
      [⟨"Indentation error: inconsistent indentation".data, l, c⟩] := by
  unfold inconsistentHere at h
  rcases hr : (skipWhitespaceExceptNewline st).rest with _ | ⟨c, r⟩
  · rw [hr] at h; simp at h
  · rw [hr] at h
    simp only [] at h
    by_cases hc : c = '\n'
    · rw [if_pos hc] at h
      obtain ⟨h1, h2⟩ := of_decide_eq_true h
      subst hc
      unfold lexStep lexDispatch
      rw [hr]
      simp only [if_true]
      refine ⟨(skipWhitespaceExceptNewline st).line + 1,
        1 + (measureIndent r).2.1, ?_⟩
      simp only [handleNewline, addToken, hr, List.tail_cons]
      rw [if_neg (by omega), if_pos h1, if_pos h2]
      simp [skipWhitespaceExceptNewline]
    · rw [if_neg hc] at h
      simp at h

/-! ### Claim C6: non-fatal inconsistent indentation; scan always
completes with EOF -/

/-- The claim's trigger input: line 2 indents to 4, line 3 dedents to
width 2, which matches no remaining stack entry ([4] is popped, top is
then 0 ≠ 2). -/
def C6input : List Char := "a:\n    b\n  c".data

/-- Claim C6: `tokenize` never aborts early — it is total (the scan
consumes all input on every source) and for every input the returned
token list ends in EOF, preceded by exactly one DEDENT per indentation
level still open at end of input; and for EVERY input on which the
scan reaches a newline whose following line dedents to a width
matching no entry remaining on the indentation stack
(`inconsistentHere` at some scan state), the returned error list
contains an "Indentation error: inconsistent indentation" LexerError —
the scan still completing.  On the concrete trigger input the error
list is exactly that single error and the full token list is
produced. -/
theorem claim_C6 :
    (∀ input : List Char, (lexLoop (initLexer input)).rest = []) ∧
    (∀ input : List Char, ∃ t : Token,
        ((tokenize input).tokens).getLast? = some t ∧ t.type = TokenType.EOF) ∧
    (∀ input : List Char, ∃ (pre : List Token) (lc : Nat × Nat),
        (tokenize input).tokens = pre
          ++ List.replicate ((lexLoop (initLexer input)).indentStack.length - 1)
              ⟨TokenType.DEDENT, [], lc.1, lc.2⟩
          ++ [⟨TokenType.EOF, [], lc.1, lc.2⟩]) ∧
    (∀ (input : List Char) (k : Nat),
        inconsistentHere (lexStep^[k] (initLexer input)) = true →
        ∃ e ∈ (tokenize input).errors,
          e.message = "Indentation error: inconsistent indentation".data) ∧
    ((tokenize C6input).errors =
        [⟨"Indentation error: inconsistent indentation".data, 3, 3⟩]) ∧
    ((tokenize C6input).tokens.map Token.type =
        [.IDENTIFIER, .COLON, .NEWLINE, .INDENT, .IDENTIFIER, .NEWLINE, .DEDENT,
         .IDENTIFIER, .EOF]) := by
  refine ⟨?_, ?_, ?_, ?_, ?_, ?_⟩
  · intro input
    exact lexLoop_complete _
  · intro input
    refine ⟨⟨TokenType.EOF, [], (flushDedents (lexLoop (initLexer input))).line,
      (flushDedents (lexLoop (initLexer input))).column⟩, ?_, rfl⟩
    simp only [tokenize, addToken]
    exact List.getLast?_concat _
  · intro input
    refine ⟨(lexLoop (initLexer input)).tokens,
      ((lexLoop (initLexer input)).line, (lexLoop (initLexer input)).column), ?_⟩
    simp [tokenize, addToken, flushDedents]
  · intro input k htrig
    obtain ⟨j, hj⟩ := lexRun_eq_iterate (initLexer input).rest.length (initLexer input)
    have hloop : lexLoop (initLexer input) = lexStep^[j] (initLexer input) := hj
    have hrest : (lexStep^[j] (initLexer input)).rest = [] := by
      rw [← hloop]
      exact lexLoop_complete _
    by_cases hjk : j ≤ k
    · exfalso
      have hsplit : k = (k - j) + j := by omega
      have hk : lexStep^[k] (initLexer input) = lexStep^[j] (initLexer input) := by
        rw [hsplit, Function.iterate_add_apply]
        exact iterate_empty _ _ hrest
      rw [hk, inconsistentHere_empty _ hrest] at htrig
      exact Bool.false_ne_true htrig
    · obtain ⟨l, c, herr⟩ := lexStep_inconsistent _ htrig
      have hjsplit : lexStep^[j] (initLexer input)
          = lexStep^[j - (k + 1)] (lexStep^[k + 1] (initLexer input)) := by
        rw [← Function.iterate_add_apply]
        congr 1
        omega
      obtain ⟨t, ht⟩ := iterate_errors (j - (k + 1)) (lexStep^[k + 1] (initLexer input))
      have hk1 : lexStep^[k + 1] (initLexer input)
          = lexStep (lexStep^[k] (initLexer input)) :=
        Function.iterate_succ_apply' lexStep k _
      have htok : (tokenize input).errors = (lexStep^[j] (initLexer input)).errors := by
        rw [← hloop]
        simp [tokenize, addToken, flushDedents]
      refine ⟨⟨"Indentation error: inconsistent indentation".data, l, c⟩, ?_, rfl⟩
      rw [htok, hjsplit, ht, hk1, herr]
      simp
  · decide
  · decide

/-- The general error conjunct of C6 instantiated: after 4 scan steps on
the concrete input the scanner sits at the newline whose next line
dedents to the unmatched width 2, the trigger predicate fires, and the
error is in the returned list. -/
theorem claim_C6_witness :
    inconsistentHere (lexStep^[4] (initLexer C6input)) = true ∧
    ∃ e ∈ (tokenize C6input).errors,
      e.message = "Indentation error: inconsistent indentation".data :=
  ⟨by decide, claim_C6.2.2.2.1 C6input 4 (by decide)⟩

/-! ## AST (src/compiler/ast.ts)

Node kinds are rendered as inductives/structures; the `type` tag field
is the constructor.  Every node keeps its `line`/`column`.  Numeric
literal values are stored as exact rationals: `parseFloat` on the
lexer number shape (digits, optional fraction) differs from IEEE-754
only beyond 53 bits of precision, and every claim uses small integers
where the two agree.  `ObjectExpression` and `EmitNode` appear in the
source type but no parser rule constructs them, so they are omitted
from the parser-output embedding. -/

inductive LitVal where
  | str (s : List Char)
  | num (q : ℚ)
  | boolV (b : Bool)

def digitsToNat (s : List Char) : Nat :=
  s.foldl (fun a c => a * 10 + (c.toNat - '0'.toNat)) 0

/-- JavaScript `parseFloat` restricted to the token shapes the lexer's
`readNumber` produces. -/
def parseFloat (s : List Char) : ℚ :=
  let intPart := s.takeWhile (fun c => c ≠ '.')
  let rest := s.dropWhile (fun c => c ≠ '.')
  match rest with
  | _ :: frac => (digitsToNat intPart : ℚ) + (digitsToNat frac : ℚ) / ((10 : ℚ) ^ frac.length)
  | [] => (digitsToNat intPart : ℚ)

inductive Expression where
  | ident (name : List Char) (line col : Nat)
  | lit (value : LitVal) (raw : List Char) (line col : Nat)
  | binary (op : List Char) (left right : Expression) (line col : Nat)
  | unary (op : List Char) (argument : Expression) (line col : Nat)
  | call (callee : Expression) (args : List Expression) (line col : Nat)
  | member (object : Expression) (property : Expression) (computed : Bool) (line col : Nat)
  | arrayE (elements : List Expression) (line col : Nat)
  | arrow (params : List (List Char)) (body : Expression) (line col : Nat)
  | condE (test consequent alternate : Expression) (line col : Nat)

structure Attr where
  name : List Char
  value : Expression

structure StateDeclaration where
  name : List Char
  initialValue : Expression
  line : Nat
  column : Nat

structure ComputedDeclaration where
  name : List Char
  dependencies : List (List Char)
  expression : Expression
  line : Nat
  column : Nat

inductive Statement where
  | expr (e : Expression)
  | stateDecl (s : StateDeclaration)

structure EffectDeclaration where
  dependencies : List (List Char)
  body : List Statement
  line : Nat
  column : Nat

structure EventHandler where
  event : List Char
  handler : Expression
  line : Nat
  column : Nat

structure AnimationProperty where
  property : List Char
  toV : Expression

structure AnimationDeclaration where
  trigger : List Char
  properties : List AnimationProperty
  duration : Nat
  easing : List Char
  line : Nat
  column : Nat

inductive StylePropVal where
  | strV (s : List Char)
  | exprV (e : Expression)

structure StyleRule where
  selector : List Char
  properties : List (List Char × StylePropVal)

structure StyleNode where
  rules : List StyleRule
  line : Nat
  column : Nat

structure AccessibilityInfo where
  role : Option (List Char) := none
  label : Option (List Char) := none
  description : Option (List Char) := none

structure PropertyDeclaration where
  name : List Char
  defaultValue : Option Expression
  required : Bool

mutual

inductive ElementNode where
  | mk (tag : List Char) (attributes : List Attr) (children : List ElementChild)
      (role : Option (List Char)) (ariaLabel : Option (List Char))
      (line col : Nat)

/-- The `children` union of an element:
`ElementNode | TextNode | ConditionalNode | LoopNode | SlotNode`. -/
inductive ElementChild where
  | elem (e : ElementNode)
  | text (content : List Char) (interpolations : List Expression) (line col : Nat)
  | cond (condition : Expression) (consequent : List ETNode)
      (alternate : Option (List ETNode)) (line col : Nat)
  | loop (item : List Char) (index : Option (List Char)) (iterable : Expression)
      (body : List ETNode) (line col : Nat)
  | slot (line col : Nat)

/-- The `(ElementNode | TextNode)` union used by conditional branches
and loop bodies. -/
inductive ETNode where
  | elem (e : ElementNode)
  | text (content : List Char) (interpolations : List Expression) (line col : Nat)

end

def ElementNode.tag : ElementNode → List Char
  | .mk t _ _ _ _ _ _ => t

def ElementNode.attributes : ElementNode → List Attr
  | .mk _ a _ _ _ _ _ => a

def ElementNode.children : ElementNode → List ElementChild
  | .mk _ _ c _ _ _ _ => c

def ElementNode.role : ElementNode → Option (List Char)
  | .mk _ _ _ r _ _ _ => r

def ElementNode.ariaLabel : ElementNode → Option (List Char)
  | .mk _ _ _ _ l _ _ => l

def ElementNode.line : ElementNode → Nat
  | .mk _ _ _ _ _ l _ => l

def ElementNode.column : ElementNode → Nat
  | .mk _ _ _ _ _ _ c => c

structure ComponentNode where
  name : List Char
  props : List PropertyDeclaration
  states : List StateDeclaration
  computed : List ComputedDeclaration
  effects : List EffectDeclaration
  handlers : List EventHandler
  animations : List AnimationDeclaration
  styles : List StyleNode
  body : List ElementNode
  accessibility : AccessibilityInfo
  line : Nat
  column : Nat

structure SpaceNode where
  name : List Char
  states : List StateDeclaration
  computed : List ComputedDeclaration
  effects : List EffectDeclaration
  handlers : List EventHandler
  line : Nat
  column : Nat

structure Program where
  components : List ComponentNode
  spaces : List SpaceNode
  styles : List StyleNode
  line : Nat
  column : Nat

/-! ## Parser (src/compiler/parser.ts)

The parser index state (`tokens`, `current`, `errors`) is threaded
explicitly.  Out-of-range token access (which would throw in
JavaScript) is modelled by a default EOF token; every token stream the
claims quantify over ends in EOF (as `tokenize` guarantees), so the
default is never reached there.  Loops that the source lets run
unboundedly take fuel; `none` means fuel exhaustion, i.e. the source
would not have terminated within that many steps.  The source's
try/catch in `parse` has no reachable throw site (`consume` records
an error and continues) and is dropped. -/

structure ParserError where
  message : List Char
  line : Nat
  column : Nat
  severity : List Char
deriving DecidableEq, Repr

structure PState where
  current : Nat
  errors : List ParserError

def defaultToken : Token := ⟨.EOF, [], 0, 0⟩

def peekP (tks : List Token) (st : PState) : Token := tks.getD st.current defaultToken

def previousP (tks : List Token) (st : PState) : Token := tks.getD (st.current - 1) defaultToken

def isAtEndP (tks : List Token) (st : PState) : Bool := (peekP tks st).type = .EOF

def checkP (tks : List Token) (st : PState) (t : TokenType) : Bool :=
  if isAtEndP tks st then false else (peekP tks st).type = t

def checkNextP (tks : List Token) (st : PState) (t : TokenType) : Bool :=
  if st.current + 1 ≥ tks.length then false
  else (tks.getD (st.current + 1) defaultToken).type = t

def advancePS (tks : List Token) (st : PState) : PState :=
  if isAtEndP tks st then st else { st with current := st.current + 1 }

/-- `advance()`: move if not at end, return the token just passed. -/
def advanceT (tks : List Token) (st : PState) : Token × PState :=
  let st2 := advancePS tks st
  (previousP tks st2, st2)

def matchP (tks : List Token) (st : PState) (t : TokenType) : Bool × PState :=
  if checkP tks st t then (true, advancePS tks st) else (false, st)

def matchAnyP (tks : List Token) (st : PState) (ts : List TokenType) : Bool × PState :=
  match ts with
  | [] => (false, st)
  | t :: rest => if checkP tks st t then (true, advancePS tks st) else matchAnyP tks st rest

def errorP (tks : List Token) (st : PState) (msg : List Char) : PState :=
  { st with errors := st.errors ++
      [⟨msg, (peekP tks st).line, (peekP tks st).column, "error".data⟩] }

/-- `consume`: advance past the expected token, or record an error and
return the current token without advancing. -/
def consumeP (tks : List Token) (st : PState) (t : TokenType) (msg : List Char) : Token × PState :=
  if checkP tks st t then advanceT tks st
  else
    let st2 := errorP tks st msg
    (peekP tks st2, st2)

def isAttributeNameT (tok : Token) : Bool :=
  tok.type = .IDENTIFIER || tok.type = .ROLE || tok.type = .LABEL ||
  tok.type = .STYLE || tok.type = .ON || tok.type = .DESCRIBE ||
  tok.type = .SLOT || tok.type = .WHEN || tok.type = .EACH ||
  tok.type = .ANIMATE || tok.type = .SPACE

/-- `synchronize`'s scan loop: stop at end of input, after a semicolon,
or before a top-level-looking keyword. -/
def syncLoop (tks : List Token) : Nat → PState → PState
  | 0, st => st
  | f + 1, st =>
      if isAtEndP tks st then st
      else if (previousP tks st).type = .SEMICOLON then st
      else
        match (peekP tks st).type with
        | .COMPONENT => st
        | .SPACE => st
        | .STATE => st
        | .COMPUTED => st
        | .EFFECT => st
        | _ => syncLoop tks f (advancePS tks st)

/-- `synchronize`: advance once, then scan forward.  The loop advances
while not at end, so `tokens.length + 1` iterations always suffice. -/
def synchronize (tks : List Token) (st : PState) : PState :=
  syncLoop tks (tks.length + 1) (advancePS tks st)

mutual

/-- The `walk` closure of `extractDependencies`: identifiers anywhere
in identifier/binary/member(object)/call positions, in source order.
Unary, array, arrow and conditional nodes are not walked (faithful to
the source). -/
def extractWalk : Expression → List (List Char)
  | .ident n _ _ => [n]
  | .binary _ l r _ _ => extractWalk l ++ extractWalk r
  | .member o _ _ _ _ => extractWalk o
  | .call c args _ _ => extractWalk c ++ extractWalkList args
  | _ => []

def extractWalkList : List Expression → List (List Char)
  | [] => []
  | e :: rest => extractWalk e ++ extractWalkList rest

end

/-- `[...new Set(deps)]`: deduplicate keeping first occurrences. -/
def dedup (l : List (List Char)) : List (List Char) :=
  l.foldl (fun acc d => if d ∈ acc then acc else acc ++ [d]) []

def extractDependencies (e : Expression) : List (List Char) :=
  dedup (extractWalk e)

/-- JavaScript object property assignment `props[k] = v`: overwrite in
place if the key exists, else append (insertion order preserved). -/
def recUpdate (props : List (List Char × StylePropVal)) (k : List Char)
    (v : StylePropVal) : List (List Char × StylePropVal) :=
  if props.any (fun pr => pr.1 = k) then
    props.map (fun pr => if pr.1 = k then (k, v) else pr)
  else props ++ [(k, v)]

/-- `parseStringValue`: consume a STRING and return its text. -/
def parseStringValue (tks : List Token) (st : PState) : List Char × PState :=
  let ps := consumeP tks st .STRING "Expected string value".data
  (ps.1.value, ps.2)

/-- Accumulator for the statement-dispatch loop of `parseComponent`. -/
structure CompAcc where
  states : List StateDeclaration := []
  computed : List ComputedDeclaration := []
  effects : List EffectDeclaration := []
  handlers : List EventHandler := []
  animations : List AnimationDeclaration := []
  styles : List StyleNode := []
  body : List ElementNode := []
  accessibility : AccessibilityInfo := {}

/-- Accumulator for the statement-dispatch loop of `parseSpace`. -/
structure SpaceAcc where
  states : List StateDeclaration := []
  computed : List ComputedDeclaration := []
  effects : List EffectDeclaration := []
  handlers : List EventHandler := []

mutual

/-- The top-level dispatch loop of `Parser.parse`. -/
def parseTopLoop (tks : List Token) : Nat → PState → List ComponentNode → List SpaceNode →
    List StyleNode → Option ((List ComponentNode × List SpaceNode × List StyleNode) × PState)
  | 0, _, _, _, _ => none
  | f + 1, st, comps, spaces, styles =>
      if isAtEndP tks st then some ((comps, spaces, styles), st)
      else if checkP tks st .COMPONENT then
        match parseComponent tks f st with
        | none => none
        | some (copt, st2) =>
            parseTopLoop tks f st2
              (match copt with | some c => comps ++ [c] | none => comps) spaces styles
      else if checkP tks st .SPACE then
        match parseSpace tks f st with
        | none => none
        | some (sopt, st2) =>
            parseTopLoop tks f st2 comps
              (match sopt with | some s => spaces ++ [s] | none => spaces) styles
      else if checkP tks st .STYLE then
        match parseStyle tks f st with
        | none => none
        | some (sopt, st2) =>
            parseTopLoop tks f st2 comps spaces
              (match sopt with | some s => styles ++ [s] | none => styles)
      else
        let st2 := errorP tks st "Expected component, space or style declaration".data
        parseTopLoop tks f (synchronize tks st2) comps spaces styles

def parseComponent (tks : List Token) : Nat → PState → Option (Option ComponentNode × PState)
  | 0, _ => none
  | f + 1, st =>
      let p := matchP tks st .COMPONENT
      if p.1 = false then
        some (none, errorP tks p.2 "Expected component declaration".data)
      else
        let token := previousP tks p.2
        let pn := consumeP tks p.2 .IDENTIFIER "Expected component name".data
        let pc := consumeP tks pn.2 .COLON "Expected : after component name".data
        match componentBodyLoop tks f pc.2 {} with
        | none => none
        | some (acc, st2) =>
            some (some
              { name := pn.1.value, props := [], states := acc.states
                computed := acc.computed, effects := acc.effects
                handlers := acc.handlers, animations := acc.animations
                styles := acc.styles, body := acc.body
                accessibility := acc.accessibility
                line := token.line, column := token.column }, st2)

def componentBodyLoop (tks : List Token) : Nat → PState → CompAcc → Option (CompAcc × PState)
  | 0, _, _ => none
  | f + 1, st, acc =>
      if isAtEndP tks st || checkP tks st .COMPONENT then some (acc, st)
      else
        let p1 := matchP tks st .STATE
        if p1.1 then
          match parseState tks f p1.2 with
          | none => none
          | some (s, st2) => componentBodyLoop tks f st2 { acc with states := acc.states ++ [s] }
        else
          let p2 := matchP tks st .COMPUTED
          if p2.1 then
            match parseComputed tks f p2.2 with
            | none => none
            | some (c, st2) =>
                componentBodyLoop tks f st2 { acc with computed := acc.computed ++ [c] }
          else
            let p3 := matchP tks st .EFFECT
            if p3.1 then
              match parseEffect tks f p3.2 with
              | none => none
              | some (e, st2) =>
                  componentBodyLoop tks f st2 { acc with effects := acc.effects ++ [e] }
            else
              let p4 := matchP tks st .ON
              if p4.1 then
                match parseEventHandler tks f p4.2 with
                | none => none
                | some (h, st2) =>
                    componentBodyLoop tks f st2 { acc with handlers := acc.handlers ++ [h] }
              else
                let p5 := matchP tks st .ANIMATE
                if p5.1 then
                  match parseAnimation tks f p5.2 with
                  | none => none
                  | some (a, st2) =>
                      componentBodyLoop tks f st2
                        { acc with animations := acc.animations ++ [a] }
                else if checkP tks st .STYLE then
                  match parseStyle tks f st with
                  | none => none
                  | some (sopt, st2) =>
                      componentBodyLoop tks f st2
                        (match sopt with
                         | some s => { acc with styles := acc.styles ++ [s] }
                         | none => acc)
                else
                  let p6 := matchP tks st .ROLE
                  if p6.1 then
                    match parseStringValue tks p6.2 with
                    | (v, st2) =>
                        componentBodyLoop tks f st2
                          { acc with accessibility :=
                              { acc.accessibility with role := some v } }
                  else
                    let p7 := matchP tks st .LABEL
                    if p7.1 then
                      match parseStringValue tks p7.2 with
                      | (v, st2) =>
                          componentBodyLoop tks f st2
                            { acc with accessibility :=
                                { acc.accessibility with label := some v } }
                    else
                      let p8 := matchP tks st .DESCRIBE
                      if p8.1 then
                        match parseStringValue tks p8.2 with
                        | (v, st2) =>
                            componentBodyLoop tks f st2
                              { acc with accessibility :=
                                  { acc.accessibility with description := some v } }
                      else if checkP tks st .IDENTIFIER then
                        match parseElement tks f st with
                        | none => none
                        | some (el, st2) =>
                            componentBodyLoop tks f st2 { acc with body := acc.body ++ [el] }
                      else componentBodyLoop tks f (advancePS tks st) acc

def parseSpace (tks : List Token) : Nat → PState → Option (Option SpaceNode × PState)
  | 0, _ => none
  | f + 1, st =>
      let p := matchP tks st .SPACE
      if p.1 = false then
        some (none, errorP tks p.2 "Expected space declaration".data)
      else
        let token := previousP tks p.2
        let pn := consumeP tks p.2 .IDENTIFIER "Expected space name".data
        let pc := consumeP tks pn.2 .COLON "Expected : after space name".data
        match spaceBodyLoop tks f pc.2 {} with
        | none => none
        | some (acc, st2) =>
            some (some
              { name := pn.1.value, states := acc.states, computed := acc.computed
                effects := acc.effects, handlers := acc.handlers
                line := token.line, column := token.column }, st2)

def spaceBodyLoop (tks : List Token) : Nat → PState → SpaceAcc → Option (SpaceAcc × PState)
  | 0, _, _ => none
  | f + 1, st, acc =>
      if isAtEndP tks st || checkP tks st .COMPONENT || checkP tks st .SPACE then some (acc, st)
      else
        let p1 := matchP tks st .STATE
        if p1.1 then
          match parseState tks f p1.2 with
          | none => none
          | some (s, st2) => spaceBodyLoop tks f st2 { acc with states := acc.states ++ [s] }
        else
          let p2 := matchP tks st .COMPUTED
          if p2.1 then
            match parseComputed tks f p2.2 with
            | none => none
            | some (c, st2) => spaceBodyLoop tks f st2 { acc with computed := acc.computed ++ [c] }
          else
            let p3 := matchP tks st .EFFECT
            if p3.1 then
              match parseEffect tks f p3.2 with
              | none => none
              | some (e, st2) => spaceBodyLoop tks f st2 { acc with effects := acc.effects ++ [e] }
            else
              let p4 := matchP tks st .ON
              if p4.1 then
                match parseEventHandler tks f p4.2 with
                | none => none
                | some (h, st2) =>
                    spaceBodyLoop tks f st2 { acc with handlers := acc.handlers ++ [h] }
              else spaceBodyLoop tks f (advancePS tks st) acc

def parseStyle (tks : List Token) : Nat → PState → Option (Option StyleNode × PState)
  | 0, _ => none
  | f + 1, st =>
      let p := matchP tks st .STYLE
      if p.1 = false then
        some (none, errorP tks p.2 "Expected style declaration".data)
      else
        let token := previousP tks p.2
        let pc := consumeP tks p.2 .COLON "Expected : after style".data
        match styleRulesLoop tks f pc.2 [] with
        | none => none
        | some (rules, st2) =>
            some (some { rules := rules, line := token.line, column := token.column }, st2)

def styleRulesLoop (tks : List Token) : Nat → PState → List StyleRule → Option (List StyleRule × PState)
  | 0, _, _ => none
  | f + 1, st, rules =>
      if isAtEndP tks st || checkP tks st .COMPONENT || checkP tks st .SPACE || checkP tks st .STYLE then
        some (rules, st)
      else
        let pd := consumeP tks st .DOT "Expected . for class selector".data
        let pn := consumeP tks pd.2 .IDENTIFIER "Expected class name".data
        let selector := '.' :: pn.1.value
        let pc := consumeP tks pn.2 .COLON "Expected : after selector".data
        match stylePropsLoop tks f pc.2 [] with
        | none => none
        | some (props, st2) =>
            styleRulesLoop tks f st2 (rules ++ [{ selector := selector, properties := props }])

def stylePropsLoop (tks : List Token) : Nat → PState → List (List Char × StylePropVal) →
    Option (List (List Char × StylePropVal) × PState)
  | 0, _, _ => none
  | f + 1, st, props =>
      if isAtEndP tks st || ¬ checkP tks st .IDENTIFIER then some (props, st)
      else
        let pt := advanceT tks st
        let pc := consumeP tks pt.2 .COLON "Expected : after property name".data
        if checkP tks pc.2 .STRING then
          let pv := advanceT tks pc.2
          stylePropsLoop tks f pv.2 (recUpdate props pt.1.value (.strV pv.1.value))
        else if checkP tks pc.2 .NUMBER then
          let pv := advanceT tks pc.2
          stylePropsLoop tks f pv.2 (recUpdate props pt.1.value (.strV pv.1.value))
        else
          match parseExpression tks f pc.2 with
          | none => none
          | some (e, st2) => stylePropsLoop tks f st2 (recUpdate props pt.1.value (.exprV e))

def parseState (tks : List Token) : Nat → PState → Option (StateDeclaration × PState)
  | 0, _ => none
  | f + 1, st =>
      let token := previousP tks st
      let pn := consumeP tks st .IDENTIFIER "Expected state name".data
      let pe := consumeP tks pn.2 .EQUALS "Expected = after state name".data
      match parseExpression tks f pe.2 with
      | none => none
      | some (e, st2) =>
          some ({ name := pn.1.value, initialValue := e
                  line := token.line, column := token.column }, st2)

def parseComputed (tks : List Token) : Nat → PState → Option (ComputedDeclaration × PState)
  | 0, _ => none
  | f + 1, st =>
      let token := previousP tks st
      let pn := consumeP tks st .IDENTIFIER "Expected computed name".data
      let pe := consumeP tks pn.2 .EQUALS "Expected = after computed name".data
      match parseExpression tks f pe.2 with
      | none => none
      | some (e, st2) =>
          some ({ name := pn.1.value, dependencies := extractDependencies e
                  expression := e, line := token.line, column := token.column }, st2)

def parseEffect (tks : List Token) : Nat → PState → Option (EffectDeclaration × PState)
  | 0, _ => none
  | f + 1, st =>
      let token := previousP tks st
      let pl := consumeP tks st .LPAREN "Expected ( after effect".data
      match
        (if ¬ checkP tks pl.2 .RPAREN then effectDepsLoop tks f pl.2 []
         else some (([] : List (List Char)), pl.2)) with
      | none => none
      | some (deps, st2) =>
          let pr := consumeP tks st2 .RPAREN "Expected ) after dependencies".data
          let pa := consumeP tks pr.2 .ARROW "Expected => after effect dependencies".data
          some ({ dependencies := deps, body := []
                  line := token.line, column := token.column }, pa.2)

def effectDepsLoop (tks : List Token) : Nat → PState → List (List Char) →
    Option (List (List Char) × PState)
  | 0, _, _ => none
  | f + 1, st, deps =>
      let pd := consumeP tks st .IDENTIFIER "Expected dependency name".data
      let deps2 := deps ++ [pd.1.value]
      let pm := matchP tks pd.2 .COMMA
      if pm.1 then effectDepsLoop tks f pm.2 deps2 else some (deps2, pm.2)

def parseEventHandler (tks : List Token) : Nat → PState → Option (EventHandler × PState)
  | 0, _ => none
  | f + 1, st =>
      let token := previousP tks st
      let pe := consumeP tks st .IDENTIFIER "Expected event name".data
      let pa := consumeP tks pe.2 .ARROW "Expected => after event name".data
      match parseArrowFunction tks f pa.2 with
      | none => none
      | some (h, st2) =>
          some ({ event := pe.1.value, handler := h
                  line := token.line, column := token.column }, st2)

def parseAnimation (tks : List Token) : Nat → PState → Option (AnimationDeclaration × PState)
  | 0, _ => none
  | f + 1, st =>
      let token := previousP tks st
      let pt := consumeP tks st .IDENTIFIER "Expected animation trigger".data
      let pc := consumeP tks pt.2 .COLON "Expected : after animation trigger".data
      match animPropsLoop tks f pc.2 [] with
      | none => none
      | some (props, st2) =>
          some ({ trigger := pt.1.value, properties := props, duration := 300
                  easing := "ease-out".data
                  line := token.line, column := token.column }, st2)

def animPropsLoop (tks : List Token) : Nat → PState → List AnimationProperty →
    Option (List AnimationProperty × PState)
  | 0, _, _ => none
  | f + 1, st, props =>
      if isAtEndP tks st || ¬ checkP tks st .IDENTIFIER then some (props, st)
      else
        let pt := advanceT tks st
        let pc := consumeP tks pt.2 .COLON "Expected : after property name".data
        match parseExpression tks f pc.2 with
        | none => none
        | some (toE, st2) =>
            let props2 := props ++ [{ property := pt.1.value, toV := toE }]
            let pm := matchP tks st2 .COMMA
            if pm.1 then animPropsLoop tks f pm.2 props2 else some (props2, pm.2)

def parseElement (tks : List Token) : Nat → PState → Option (ElementNode × PState)
  | 0, _ => none
  | f + 1, st =>
      let token := peekP tks st
      let pt := consumeP tks st .IDENTIFIER "Expected element tag".data
      match elementAttrLoop tks f pt.2 [] with
      | none => none
      | some (attrs, st2) =>
          let pm := matchP tks st2 .COLON
          if pm.1 then
            let ps := matchP tks pm.2 .STRING
            if ps.1 then
              let text := previousP tks ps.2
              some (.mk pt.1.value attrs
                [.text text.value [] text.line text.column] none none
                token.line token.column, ps.2)
            else
              match elementChildrenLoop tks f ps.2 [] with
              | none => none
              | some (children, st3) =>
                  some (.mk pt.1.value attrs children none none
                    token.line token.column, st3)
          else
            some (.mk pt.1.value attrs [] none none token.line token.column, pm.2)

def elementAttrLoop (tks : List Token) : Nat → PState → List Attr → Option (List Attr × PState)
  | 0, _, _ => none
  | f + 1, st, attrs =>
      if isAttributeNameT (peekP tks st) && ¬ checkNextP tks st .COLON then
        let pa := advanceT tks st
        match hyphenLoop tks f pa.2 pa.1.value with
        | none => none
        | some (attrName, st2) =>
            let pe := consumeP tks st2 .EQUALS "Expected = after attribute name".data
            match parseExpression tks f pe.2 with
            | none => none
            | some (v, st3) =>
                elementAttrLoop tks f st3 (attrs ++ [{ name := attrName, value := v }])
      else some (attrs, st)

def hyphenLoop (tks : List Token) : Nat → PState → List Char → Option (List Char × PState)
  | 0, _, _ => none
  | f + 1, st, name =>
      let pm := matchP tks st .MINUS
      if pm.1 then
        let name2 := name ++ ['-']
        if isAttributeNameT (peekP tks pm.2) then
          let pa := advanceT tks pm.2
          hyphenLoop tks f pa.2 (name2 ++ pa.1.value)
        else
          hyphenLoop tks f (errorP tks pm.2 "Expected attribute name part after -".data) name2
      else some (name, pm.2)

def elementChildrenLoop (tks : List Token) : Nat → PState → List ElementChild →
    Option (List ElementChild × PState)
  | 0, _, _ => none
  | f + 1, st, children =>
      if isAtEndP tks st || ¬ checkP tks st .IDENTIFIER then some (children, st)
      else if (peekP tks st).value = "when".data then
        match parseConditional tks f st with
        | none => none
        | some (c, st2) => elementChildrenLoop tks f st2 (children ++ [c])
      else if (peekP tks st).value = "each".data then
        match parseLoopNode tks f st with
        | none => none
        | some (l, st2) => elementChildrenLoop tks f st2 (children ++ [l])
      else if (peekP tks st).value = "slot".data then
        match parseSlot tks f st with
        | none => none
        | some (s, st2) => elementChildrenLoop tks f st2 (children ++ [s])
      else
        match parseElement tks f st with
        | none => none
        | some (el, st2) => elementChildrenLoop tks f st2 (children ++ [.elem el])

def parseConditional (tks : List Token) : Nat → PState → Option (ElementChild × PState)
  | 0, _ => none
  | f + 1, st =>
      let pw := consumeP tks st .IDENTIFIER "Expected when".data
      let token := previousP tks pw.2
      match parseExpression tks f pw.2 with
      | none => none
      | some (cond, st2) =>
          let pc := consumeP tks st2 .COLON "Expected : after condition".data
          if checkP tks pc.2 .IDENTIFIER then
            match parseElement tks f pc.2 with
            | none => none
            | some (el, st3) =>
                some (.cond cond [.elem el] none token.line token.column, st3)
          else
            some (.cond cond [] none token.line token.column, pc.2)

def parseLoopNode (tks : List Token) : Nat → PState → Option (ElementChild × PState)
  | 0, _ => none
  | f + 1, st =>
      let pe := consumeP tks st .IDENTIFIER "Expected each".data
      let token := previousP tks pe.2
      let pi := consumeP tks pe.2 .IDENTIFIER "Expected item name".data
      let pin := consumeP tks pi.2 .IDENTIFIER "Expected in".data
      match parseExpression tks f pin.2 with
      | none => none
      | some (iterable, st2) =>
          let pc := consumeP tks st2 .COLON "Expected : after iterable".data
          if checkP tks pc.2 .IDENTIFIER then
            match parseElement tks f pc.2 with
            | none => none
            | some (el, st3) =>
                some (.loop pi.1.value none iterable [.elem el]
                  token.line token.column, st3)
          else
            some (.loop pi.1.value none iterable [] token.line token.column, pc.2)

def parseSlot (tks : List Token) : Nat → PState → Option (ElementChild × PState)
  | 0, _ => none
  | f + 1, st =>
      let ps := consumeP tks st .IDENTIFIER "Expected slot".data
      let token := previousP tks ps.2
      some (.slot token.line token.column, ps.2)

def parseExpression (tks : List Token) : Nat → PState → Option (Expression × PState)
  | 0, _ => none
  | f + 1, st => parseTernary tks f st

def parseTernary (tks : List Token) : Nat → PState → Option (Expression × PState)
  | 0, _ => none
  | f + 1, st =>
      match parseLogicalOr tks f st with
      | none => none
      | some (expr, st2) =>
          let pq := matchP tks st2 .QUESTION
          if pq.1 then
            let question := previousP tks pq.2
            match parseExpression tks f pq.2 with
            | none => none
            | some (consequent, st3) =>
                let pc := consumeP tks st3 .COLON "Expected : in conditional expression".data
                match parseTernary tks f pc.2 with
                | none => none
                | some (alternate, st4) =>
                    some (.condE expr consequent alternate
                      question.line question.column, st4)
          else some (expr, pq.2)

def parseLogicalOr (tks : List Token) : Nat → PState → Option (Expression × PState)
  | 0, _ => none
  | f + 1, st =>
      match parseLogicalAnd tks f st with
      | none => none
      | some (left, st2) => orLoop tks f st2 left

def orLoop (tks : List Token) : Nat → PState → Expression → Option (Expression × PState)
  | 0, _, _ => none
  | f + 1, st, left =>
      let pm := matchP tks st .OR
      if pm.1 then
        let op := previousP tks pm.2
        match parseLogicalAnd tks f pm.2 with
        | none => none
        | some (right, st2) =>
            orLoop tks f st2 (.binary op.value left right op.line op.column)
      else some (left, pm.2)

def parseLogicalAnd (tks : List Token) : Nat → PState → Option (Expression × PState)
  | 0, _ => none
  | f + 1, st =>
      match parseEquality tks f st with
      | none => none
      | some (left, st2) => andLoop tks f st2 left

def andLoop (tks : List Token) : Nat → PState → Expression → Option (Expression × PState)
  | 0, _, _ => none
  | f + 1, st, left =>
      let pm := matchP tks st .AND
      if pm.1 then
        let op := previousP tks pm.2
        match parseEquality tks f pm.2 with
        | none => none
        | some (right, st2) =>
            andLoop tks f st2 (.binary op.value left right op.line op.column)
      else some (left, pm.2)

def parseEquality (tks : List Token) : Nat → PState → Option (Expression × PState)
  | 0, _ => none
  | f + 1, st =>
      match parseComparison tks f st with
      | none => none
      | some (left, st2) => equalityLoop tks f st2 left

def equalityLoop (tks : List Token) : Nat → PState → Expression → Option (Expression × PState)
  | 0, _, _ => none
  | f + 1, st, left =>
      let pm := matchAnyP tks st [.EQ, .NE]
      if pm.1 then
        let op := previousP tks pm.2
        match parseComparison tks f pm.2 with
        | none => none
        | some (right, st2) =>
            equalityLoop tks f st2 (.binary op.value left right op.line op.column)
      else some (left, pm.2)

def parseComparison (tks : List Token) : Nat → PState → Option (Expression × PState)
  | 0, _ => none
  | f + 1, st =>
      match parseAdditive tks f st with
      | none => none
      | some (left, st2) => comparisonLoop tks f st2 left

def comparisonLoop (tks : List Token) : Nat → PState → Expression → Option (Expression × PState)
  | 0, _, _ => none
  | f + 1, st, left =>
      let pm := matchAnyP tks st [.LT, .GT, .LE, .GE]
      if pm.1 then
        let op := previousP tks pm.2
        match parseAdditive tks f pm.2 with
        | none => none
        | some (right, st2) =>
            comparisonLoop tks f st2 (.binary op.value left right op.line op.column)
      else some (left, pm.2)

def parseAdditive (tks : List Token) : Nat → PState → Option (Expression × PState)
  | 0, _ => none
  | f + 1, st =>
      match parseMultiplicative tks f st with
      | none => none
      | some (left, st2) => additiveLoop tks f st2 left

def additiveLoop (tks : List Token) : Nat → PState → Expression → Option (Expression × PState)
  | 0, _, _ => none
  | f + 1, st, left =>
      let pm := matchAnyP tks st [.PLUS, .MINUS]
      if pm.1 then
        let op := previousP tks pm.2
        match parseMultiplicative tks f pm.2 with
        | none => none
        | some (right, st2) =>
            additiveLoop tks f st2 (.binary op.value left right op.line op.column)
      else some (left, pm.2)

def parseMultiplicative (tks : List Token) : Nat → PState → Option (Expression × PState)
  | 0, _ => none
  | f + 1, st =>
      match parseUnary tks f st with
      | none => none
      | some (left, st2) => multiplicativeLoop tks f st2 left

def multiplicativeLoop (tks : List Token) : Nat → PState → Expression → Option (Expression × PState)
  | 0, _, _ => none
  | f + 1, st, left =>
      let pm := matchAnyP tks st [.STAR, .SLASH]
      if pm.1 then
        let op := previousP tks pm.2
        match parseUnary tks f pm.2 with
        | none => none
        | some (right, st2) =>
            multiplicativeLoop tks f st2 (.binary op.value left right op.line op.column)
      else some (left, pm.2)

def parseUnary (tks : List Token) : Nat → PState → Option (Expression × PState)
  | 0, _ => none
  | f + 1, st =>
      let pm := matchAnyP tks st [.BANG, .MINUS]
      if pm.1 then
        let op := previousP tks pm.2
        match parseUnary tks f pm.2 with
        | none => none
        | some (arg, st2) =>
            some (.unary op.value arg op.line op.column, st2)
      else parsePostfix tks f pm.2

def parsePostfix (tks : List Token) : Nat → PState → Option (Expression × PState)
  | 0, _ => none
  | f + 1, st =>
      match parsePrimary tks f st with
      | none => none
      | some (e, st2) => postfixLoop tks f st2 e

def postfixLoop (tks : List Token) : Nat → PState → Expression → Option (Expression × PState)
  | 0, _, _ => none
  | f + 1, st, expr =>
      let pd := matchP tks st .DOT
      if pd.1 then
        let pp := consumeP tks pd.2 .IDENTIFIER "Expected property name".data
        postfixLoop tks f pp.2
          (.member expr (.ident pp.1.value pp.1.line pp.1.column) false
            pp.1.line pp.1.column)
      else
        let pb := matchP tks pd.2 .LBRACKET
        if pb.1 then
          match parseExpression tks f pb.2 with
          | none => none
          | some (property, st2) =>
              let pr := consumeP tks st2 .RBRACKET "Expected ] after computed property".data
              let prev := previousP tks pr.2
              postfixLoop tks f pr.2 (.member expr property true prev.line prev.column)
        else
          let pl := matchP tks pb.2 .LPAREN
          if pl.1 then
            match
              (if ¬ checkP tks pl.2 .RPAREN then argsLoop tks f pl.2 []
               else some (([] : List Expression), pl.2)) with
            | none => none
            | some (args, st2) =>
                let pr := consumeP tks st2 .RPAREN "Expected ) after arguments".data
                let prev := previousP tks pr.2
                postfixLoop tks f pr.2 (.call expr args prev.line prev.column)
          else some (expr, pl.2)

def argsLoop (tks : List Token) : Nat → PState → List Expression → Option (List Expression × PState)
  | 0, _, _ => none
  | f + 1, st, args =>
      match parseExpression tks f st with
      | none => none
      | some (e, st2) =>
          let args2 := args ++ [e]
          let pm := matchP tks st2 .COMMA
          if pm.1 then argsLoop tks f pm.2 args2 else some (args2, pm.2)

def parsePrimary (tks : List Token) : Nat → PState → Option (Expression × PState)
  | 0, _ => none
  | f + 1, st =>
      let token := peekP tks st
      let p1 := matchP tks st .NUMBER
      if p1.1 then
        some (.lit (.num (parseFloat (previousP tks p1.2).value)) (previousP tks p1.2).value
          token.line token.column, p1.2)
      else
        let p2 := matchP tks p1.2 .STRING
        if p2.1 then
          some (.lit (.str (previousP tks p2.2).value) (previousP tks p2.2).value
            token.line token.column, p2.2)
        else
          let p3 := matchP tks p2.2 .BOOLEAN
          if p3.1 then
            some (.lit (.boolV ((previousP tks p3.2).value = "true".data))
              (previousP tks p3.2).value token.line token.column, p3.2)
          else
            let p4 := matchP tks p3.2 .IDENTIFIER
            if p4.1 then
              some (.ident (previousP tks p4.2).value token.line token.column, p4.2)
            else
              let p5 := matchP tks p4.2 .LBRACKET
              if p5.1 then
                match
                  (if ¬ checkP tks p5.2 .RBRACKET then argsLoop tks f p5.2 []
                   else some (([] : List Expression), p5.2)) with
                | none => none
                | some (elems, st2) =>
                    let pr := consumeP tks st2 .RBRACKET "Expected ] after array elements".data
                    some (.arrayE elems token.line token.column, pr.2)
              else
                let p6 := matchP tks p5.2 .LPAREN
                if p6.1 then
                  match parseExpression tks f p6.2 with
                  | none => none
                  | some (e, st2) =>
                      let pr := consumeP tks st2 .RPAREN "Expected ) after expression".data
                      some (e, pr.2)
                else
                  let st2 := errorP tks p6.2 "Expected expression".data
                  some (.lit (.num 0) "0".data token.line token.column, st2)

def parseArrowFunction (tks : List Token) : Nat → PState → Option (Expression × PState)
  | 0, _ => none
  | f + 1, st =>
      let token := peekP tks st
      let pl := matchP tks st .LPAREN
      if pl.1 then
        match
          (if ¬ checkP tks pl.2 .RPAREN then paramsLoop tks f pl.2 []
           else some (([] : List (List Char)), pl.2)) with
        | none => none
        | some (params, st2) =>
            let pr := consumeP tks st2 .RPAREN "Expected ) after parameters".data
            match parseExpression tks f pr.2 with
            | none => none
            | some (body, st3) =>
                some (.arrow params body token.line token.column, st3)
      else
        match parseExpression tks f pl.2 with
        | none => none
        | some (body, st2) =>
            some (.arrow [] body token.line token.column, st2)

def paramsLoop (tks : List Token) : Nat → PState → List (List Char) →
    Option (List (List Char) × PState)
  | 0, _, _ => none
  | f + 1, st, params =>
      let pp := consumeP tks st .IDENTIFIER "Expected parameter name".data
      let params2 := params ++ [pp.1.value]
      let pm := matchP tks pp.2 .COMMA
      if pm.1 then paramsLoop tks f pm.2 params2 else some (params2, pm.2)

end

/-- The `Parser` constructor's structural-token filter. -/
def filterTokens (ts : List Token) : List Token :=
  ts.filter (fun t =>
    t.type ≠ .NEWLINE && t.type ≠ .INDENT && t.type ≠ .DEDENT)

/-- `Parser.parse`: top-level loop, then `ast` is the program iff at
least one component was collected. -/
def parse (fuel : Nat) (ts : List Token) : Option (Option Program × List ParserError) :=
  let tks := filterTokens ts
  let st : PState := ⟨0, []⟩
  match parseTopLoop tks fuel st [] [] [] with
  | none => none
  | some ((comps, spaces, styles), st2) =>
      some ((if comps.length > 0 then
        some { components := comps, spaces := spaces, styles := styles
               line := 1, column := 1 }
        else none), st2.errors)

/-! ### Claim C5: operator precedence and associativity -/

/-- Claim C5: on the token sequence of `"1 + 2 * 3"` the expression
parser yields BINARY(+, 1, BINARY(*, 2, 3)) — multiplicative binds
tighter, binary operators left-associative — and on the token sequence
of `"a ? b : c ? d : e"` the second ternary is nested in the alternate
position of the first (ternary right-associative).  Both parses
consume the whole stream (position 5 resp. 9, at EOF) with no
errors. -/
theorem claim_C5 :
    ((parseExpression (filterTokens (tokenize "1 + 2 * 3".data).tokens) 99 ⟨0, []⟩).map
        (fun p => (p.1, p.2.errors, p.2.current))
      = some
        (.binary "+".data
          (.lit (.num 1) "1".data 1 1)
          (.binary "*".data
            (.lit (.num 2) "2".data 1 5)
            (.lit (.num 3) "3".data 1 9) 1 7)
          1 3, [], 5)) ∧
    ((parseExpression (filterTokens (tokenize "a ? b : c ? d : e".data).tokens) 99 ⟨0, []⟩).map
        (fun p => (p.1, p.2.errors, p.2.current))
      = some
        (.condE (.ident "a".data 1 1)
          (.ident "b".data 1 5)
          (.condE (.ident "c".data 1 9)
            (.ident "d".data 1 13)
            (.ident "e".data 1 17) 1 11)
          1 3, [], 9)) :=
  ⟨rfl, rfl⟩

/-! ## Semantic analyzer (src/compiler/semantic.ts)

`declaredVariables` is the per-component scope set; errors and
warnings accumulate in order.  Only components are analyzed (`analyze`
does not visit `ast.spaces`, faithful to the source). -/

structure SemanticError where
  message : List Char
  line : Nat
  column : Nat
deriving DecidableEq, Repr

structure SemanticWarning where
  message : List Char
  line : Nat
  column : Nat
deriving DecidableEq, Repr

structure SemState where
  errors : List SemanticError := []
  warnings : List SemanticWarning := []
  declaredVariables : List (List Char) := []

def addVar (v : List Char) (l : List (List Char)) : List (List Char) :=
  if v ∈ l then l else l ++ [v]

def interactiveTags : List (List Char) :=
  ["button".data, "input".data, "select".data, "textarea".data, "a".data]

mutual

/-- `hasInteractiveElements`: an interactive tag anywhere in the
element subtree, recursing only into ELEMENT children (conditional and
loop bodies are not traversed here, faithful to the source filter). -/
def hasIntEl : ElementNode → Bool
  | .mk tag _ children _ _ _ _ =>
      decide (tag ∈ interactiveTags) ||
      (children.length > 0 && hasIntChildren children)

def hasIntChildren : List ElementChild → Bool
  | [] => false
  | .elem e :: rest => hasIntEl e || hasIntChildren rest
  | _ :: rest => hasIntChildren rest

end

def hasInteractiveElements : List ElementNode → Bool
  | [] => false
  | e :: rest => hasIntEl e || hasInteractiveElements rest

def isTextChild : ElementChild → Bool
  | .text _ _ _ _ => true
  | _ => false

mutual

/-- `analyzeElement`: button-without-label warning, img-without-alt
error, then recurse into element/conditional/loop children. -/
def analyzeElement (el : ElementNode) (ss : SemState) : SemState :=
  match el with
  | .mk tag attrs children _ ariaLabel line col =>
      let ss1 :=
        if tag = "button".data ∧ ariaLabel = none then
          if ¬ children.any isTextChild then
            { ss with warnings := ss.warnings ++
                [⟨"Button element without text content or aria-label".data, line, col⟩] }
          else ss
        else ss
      let ss2 :=
        if tag = "img".data then
          if ¬ attrs.any (fun a => a.name = "alt".data) then
            { ss1 with errors := ss1.errors ++
                [⟨"Image element must have alt attribute".data, line, col⟩] }
          else ss1
        else ss1
      analyzeChildren children ss2

def analyzeChildren (cs : List ElementChild) (ss : SemState) : SemState :=
  match cs with
  | [] => ss
  | .elem e :: rest => analyzeChildren rest (analyzeElement e ss)
  | .cond _ consequent alternate _ _ :: rest =>
      let ssA := analyzeETList consequent ss
      let ssB :=
        match alternate with
        | some alt => analyzeETList alt ssA
        | none => ssA
      analyzeChildren rest ssB
  | .loop item index _ body _ _ :: rest =>
      let prev := ss.declaredVariables
      let ss1 := { ss with declaredVariables := addVar item ss.declaredVariables }
      let ss2 :=
        match index with
        | some i => { ss1 with declaredVariables := addVar i ss1.declaredVariables }
        | none => ss1
      let ss3 := analyzeETList body ss2
      analyzeChildren rest { ss3 with declaredVariables := prev }
  | .text _ _ _ _ :: rest => analyzeChildren rest ss
  | .slot _ _ :: rest => analyzeChildren rest ss

def analyzeETList (ns : List ETNode) (ss : SemState) : SemState :=
  match ns with
  | [] => ss
  | .elem e :: rest => analyzeETList rest (analyzeElement e ss)
  | .text _ _ _ _ :: rest => analyzeETList rest ss

end

def validateAccessibility (c : ComponentNode) (ss : SemState) : SemState :=
  let ss1 :=
    if hasInteractiveElements c.body ∧ c.accessibility.role = none then
      { ss with warnings := ss.warnings ++
          [⟨"Component \x27".data ++ c.name ++
            "\x27 has interactive elements but no role defined".data,
            c.line, c.column⟩] }
    else ss
  if c.handlers.length > 0 ∧ c.accessibility.label = none then
    { ss1 with warnings := ss1.warnings ++
        [⟨"Component \x27".data ++ c.name ++
          "\x27 has event handlers but no aria-label".data,
          c.line, c.column⟩] }
  else ss1

def analyzeStates (states : List StateDeclaration) (ss : SemState) : SemState :=
  states.foldl
    (fun ss s =>
      let ss1 :=
        if s.name ∈ ss.declaredVariables then
          { ss with errors := ss.errors ++
              [⟨"Duplicate state declaration: ".data ++ s.name, s.line, s.column⟩] }
        else ss
      { ss1 with declaredVariables := addVar s.name ss1.declaredVariables }) ss

def analyzeComputedDecls (computed : List ComputedDeclaration) (ss : SemState) : SemState :=
  computed.foldl
    (fun ss c =>
      let ss1 :=
        if c.name ∈ ss.declaredVariables then
          { ss with errors := ss.errors ++
              [⟨"Duplicate computed declaration: ".data ++ c.name, c.line, c.column⟩] }
        else ss
      let ss2 := { ss1 with declaredVariables := addVar c.name ss1.declaredVariables }
      c.dependencies.foldl
        (fun ss dep =>
          if dep ∉ ss.declaredVariables then
            { ss with warnings := ss.warnings ++
                [⟨"Computed \x27".data ++ c.name ++
                  "\x27 depends on undeclared variable: ".data ++ dep,
                  c.line, c.column⟩] }
          else ss) ss2) ss

def analyzeEffects (effects : List EffectDeclaration) (ss : SemState) : SemState :=
  effects.foldl
    (fun ss e =>
      e.dependencies.foldl
        (fun ss dep =>
          if dep ∉ ss.declaredVariables then
            { ss with warnings := ss.warnings ++
                [⟨"Effect depends on undeclared variable: ".data ++ dep,
                  e.line, e.column⟩] }
          else ss) ss) ss

def analyzeComponent (c : ComponentNode) (ss : SemState) : SemState :=
  let ss0 := { ss with declaredVariables := [] }
  let ss1 := analyzeStates c.states ss0
  let ss2 := analyzeComputedDecls c.computed ss1
  let ss3 := analyzeEffects c.effects ss2
  let ss4 := validateAccessibility c ss3
  c.body.foldl (fun ss el => analyzeElement el ss) ss4

/-- `SemanticAnalyzer.analyze`. -/
def analyze (p : Program) : List SemanticError × List SemanticWarning :=
  let ss := p.components.foldl (fun ss c => analyzeComponent c ss)
    { errors := [], warnings := [], declaredVariables := [] }
  (ss.errors, ss.warnings)

/-! ## Code generator (src/compiler/codegen.ts)

Output is a list of emitted lines joined by newlines at the end.  The
`contextVar` parameter of the element generators is threaded but never
emitted in the source and is dropped here.  JavaScript `String(n)` on
a non-integral number uses shortest-roundtrip printing, which is not
modelled (integral values print exactly); no claim inspects generated
code for non-integral literals (or at all). -/

structure CodeGenOptions where
  minify : Bool := false
  sourceMaps : Bool := false

structure CGState where
  indent : Nat := 0
  output : List (List Char) := []
  componentCounter : Nat := 0

def emitCG (code : List Char) (cg : CGState) : CGState :=
  { cg with output := cg.output ++ [List.replicate (cg.indent * 2) ' ' ++ code] }

def capitalize (s : List Char) : List Char :=
  match s with
  | [] => []
  | c :: rest => c.toUpper :: rest

/-- `escapeString`: the sequential regex replaces are equivalent to a
single character map (replacement backslashes are not reprocessed). -/
def escapeStringCG (s : List Char) : List Char :=
  s.foldr
    (fun c acc =>
      if c = '\\' then '\\' :: '\\' :: acc
      else if c = '\x27' then '\\' :: '\x27' :: acc
      else if c = '"' then '\\' :: '"' :: acc
      else if c = '\n' then '\\' :: 'n' :: acc
      else if c = '\r' then '\\' :: 'r' :: acc
      else if c = '\t' then '\\' :: 't' :: acc
      else c :: acc) []

def ratToCode (q : ℚ) : List Char :=
  if q.den = 1 then (toString q.num).data else (toString q).data

def litToCode : LitVal → List Char
  | .str s => '\x27' :: escapeStringCG s ++ ['\x27']
  | .num q => ratToCode q
  | .boolV b => if b then "true".data else "false".data

def joinWith (sep : List Char) (l : List (List Char)) : List Char :=
  match l with
  | [] => []
  | x :: rest => rest.foldl (fun acc y => acc ++ sep ++ y) x

mutual

def generateExpression : Expression → List Char
  | .ident n _ _ => n
  | .lit v _ _ _ => litToCode v
  | .binary op l r _ _ =>
      '(' :: generateExpression l ++ ' ' :: op ++ ' ' :: generateExpression r ++ [')']
  | .unary op a _ _ => op ++ generateExpression a
  | .call c args _ _ =>
      generateExpression c ++ '(' :: joinWith ", ".data (genExprList args) ++ [')']
  | .member o p computed _ _ =>
      if computed then generateExpression o ++ '[' :: generateExpression p ++ [']']
      else
        generateExpression o ++ '.' ::
          (match p with
           | .ident n _ _ => n
           | _ => "undefined".data)
  | .arrayE elems _ _ => '[' :: joinWith ", ".data (genExprList elems) ++ [']']
  | .arrow params body _ _ =>
      '(' :: joinWith ", ".data params ++ ") => ".data ++ generateExpression body
  | .condE t c a _ _ =>
      '(' :: generateExpression t ++ " ? ".data ++ generateExpression c ++
        " : ".data ++ generateExpression a ++ [')']

def genExprList : List Expression → List (List Char)
  | [] => []
  | e :: rest => generateExpression e :: genExprList rest

end

def generateStatement : Statement → List Char
  | .stateDecl sd =>
      "const ".data ++ sd.name ++ " = ".data ++ generateExpression sd.initialValue
  | .expr e => generateExpression e

/-- The text splitter of `generateText`\x27s interpolation branch:
`content.split` on dollar-brace segments with a non-empty body. -/
def splitDollarBrace : List Char → List Char → List (List Char) → List (List Char)
  | [], cur, acc => acc ++ [cur]
  | '$' :: '\x7b' :: rest, cur, acc =>
      match hA : rest.dropWhile (fun c => c ≠ '\x7d'),
            rest.takeWhile (fun c => c ≠ '\x7d') with
      | _ :: rest2, _ :: _ => splitDollarBrace rest2 [] (acc ++ [cur])
      | _, _ => splitDollarBrace rest (cur ++ ['$', '\x7b']) acc
  | c :: rest, cur, acc => splitDollarBrace rest (cur ++ [c]) acc
termination_by cs _ _ => cs.length
decreasing_by
  · simp_wf
    have h := dropWhile_length_le (p := fun c => decide (c ≠ '\x7d')) rest
    rw [hA] at h
    simp only [List.length_cons] at h
    omega
  · simp_wf
    omega
  · simp_wf
def generateText (content : List Char) (interps : List Expression) (cg : CGState) : CGState :=
  if interps.length = 0 then
    emitCG ('\x27' :: escapeStringCG content ++ "\x27,".data) cg
  else
    let parts := splitDollarBrace content [] []
    let pieces := (parts.enum.map (fun pi =>
      if pi.1 < interps.length then
        '\x27' :: escapeStringCG pi.2 ++ "\x27 + ".data ++
          generateExpression (interps.getD pi.1 (.ident [] 0 0))
      else '\x27' :: escapeStringCG pi.2 ++ ['\x27']))
    emitCG (joinWith " + ".data pieces ++ [',']) cg

mutual

def generateElement (el : ElementNode) (cg : CGState) : CGState :=
  match el with
  | .mk tag attrs children role ariaLabel _ _ =>
      let attrsL := attrs.map (fun a => a.name ++ ": ".data ++ generateExpression a.value)
      let attrsL :=
        match role with
        | some r => attrsL ++ ["role: \x27".data ++ r ++ "\x27".data]
        | none => attrsL
      let attrsL :=
        match ariaLabel with
        | some l => attrsL ++ ["\x27aria-label\x27: \x27".data ++ l ++ "\x27".data]
        | none => attrsL
      let attrsStr :=
        if attrsL.length > 0 then "\x7b ".data ++ joinWith ", ".data attrsL ++ " \x7d".data
        else "null".data
      let cg := emitCG ("createElement(\x27".data ++ tag ++ "\x27, ".data ++ attrsStr
        ++ ", [".data) cg
      let cg := { cg with indent := cg.indent + 1 }
      let cg := genChildren children cg
      let cg := { cg with indent := cg.indent - 1 }
      emitCG "]),".data cg
termination_by sizeOf el

def genChildren : List ElementChild → CGState → CGState
  | [], cg => cg
  | .elem e :: rest, cg => genChildren rest (generateElement e cg)
  | .text content interps _ _ :: rest, cg =>
      genChildren rest (generateText content interps cg)
  | .cond condition consequent alternate _ _ :: rest, cg =>
      genChildren rest (generateConditional condition consequent alternate cg)
  | .loop item index iterable body _ _ :: rest, cg =>
      genChildren rest (generateLoopNode item index iterable body cg)
  | .slot _ _ :: rest, cg => genChildren rest cg
termination_by cs cg => sizeOf cs

def generateConditional (condition : Expression) (consequent : List ETNode)
    (alternate : Option (List ETNode)) (cg : CGState) : CGState :=
  let cond := generateExpression condition
  let cg := emitCG (cond ++ " ? [".data) cg
  let cg := { cg with indent := cg.indent + 1 }
  let cg := genETList consequent cg
  let cg := { cg with indent := cg.indent - 1 }
  match alternate with
  | some alt =>
      if alt.length > 0 then
        let cg := emitCG "] : [".data cg
        let cg := { cg with indent := cg.indent + 1 }
        let cg := genETList alt cg
        let cg := { cg with indent := cg.indent - 1 }
        emitCG "],".data cg
      else emitCG "] : null,".data cg
  | none => emitCG "] : null,".data cg
termination_by sizeOf consequent + sizeOf alternate
decreasing_by
  all_goals simp_wf
  all_goals try simp_arith
  all_goals cases alternate <;> simp_arith

def generateLoopNode (item : List Char) (index : Option (List Char))
    (iterable : Expression) (body : List ETNode) (cg : CGState) : CGState :=
  let iterableS := generateExpression iterable
  let indexVar := index.getD "index".data
  let cg := emitCG ("...".data ++ iterableS ++ ".map((".data ++ item ++ ", ".data
    ++ indexVar ++ ") => [".data) cg
  let cg := { cg with indent := cg.indent + 1 }
  let cg := genETList body cg
  let cg := { cg with indent := cg.indent - 1 }
  emitCG "]),".data cg
termination_by sizeOf body + 1

def genETList : List ETNode → CGState → CGState
  | [], cg => cg
  | .elem e :: rest, cg => genETList rest (generateElement e cg)
  | .text content interps _ _ :: rest, cg =>
      genETList rest (generateText content interps cg)
termination_by ns cg => sizeOf ns

end

def generateState (s : StateDeclaration) (cg : CGState) : CGState :=
  emitCG ("const [".data ++ s.name ++ ", set".data ++ capitalize s.name
    ++ "] = createSignal(".data ++ generateExpression s.initialValue ++ ");".data) cg

def generateComputed (c : ComputedDeclaration) (cg : CGState) : CGState :=
  emitCG ("const ".data ++ c.name ++ " = createComputed(() => ".data
    ++ generateExpression c.expression ++ ");".data) cg

def generateEffect (e : EffectDeclaration) (cg : CGState) : CGState :=
  let deps := joinWith ", ".data (e.dependencies.map (fun d => "() => ".data ++ d))
  let cg := emitCG ("createEffect([".data ++ deps ++ "], () => \x7b".data) cg
  let cg := { cg with indent := cg.indent + 1 }
  let cg := e.body.foldl (fun cg stmt => emitCG (generateStatement stmt ++ [';']) cg) cg
  let cg := { cg with indent := cg.indent - 1 }
  emitCG "\x7d);".data cg

/-- The `Map.set` accumulation over animations: later declarations with
the same trigger overwrite earlier ones. -/
def lookupAnimation (anims : List AnimationDeclaration) (ev : List Char) :
    Option AnimationDeclaration :=
  anims.foldl (fun acc a => if a.trigger = ev then some a else acc) none

def generateEventHandler (h : EventHandler) (anims : List AnimationDeclaration)
    (cg : CGState) : CGState :=
  let handlerName := "handle".data ++ capitalize h.event
  let params := joinWith ", ".data
    (match h.handler with | .arrow ps _ _ _ => ps | _ => [])
  let body := generateExpression
    (match h.handler with | .arrow _ b _ _ => b | e => e)
  let cg := emitCG ("const ".data ++ handlerName ++ " = (".data ++ params
    ++ ") => \x7b".data) cg
  let cg := { cg with indent := cg.indent + 1 }
  let cg :=
    match lookupAnimation anims h.event with
    | some animation =>
        let cg := emitCG "animationController.animate(\x7b".data cg
        let cg := { cg with indent := cg.indent + 1 }
        let cg := emitCG "properties: \x7b".data cg
        let cg := { cg with indent := cg.indent + 1 }
        let cg := animation.properties.foldl
          (fun cg pr => emitCG (pr.property ++ ": ".data
            ++ generateExpression pr.toV ++ [',']) cg) cg
        let cg := { cg with indent := cg.indent - 1 }
        let cg := emitCG "\x7d,".data cg
        let cg := emitCG ("duration: ".data ++ (toString animation.duration).data ++ [',']) cg
        let cg := emitCG ("easing: \x27".data ++ animation.easing ++ "\x27".data) cg
        let cg := { cg with indent := cg.indent - 1 }
        emitCG "\x7d);".data cg
    | none => cg
  let cg := emitCG (body ++ [';']) cg
  let cg := { cg with indent := cg.indent - 1 }
  emitCG "\x7d;".data cg

def generateStylesCG (styles : List StyleNode) (cg : CGState) : CGState :=
  let css := styles.foldl
    (fun css style =>
      style.rules.foldl
        (fun css rule =>
          let css := css ++ rule.selector ++ " \x7b ".data
          let css := rule.properties.foldl
            (fun css pr =>
              match pr.2 with
              | .exprV _ => css
              | .strV v => css ++ pr.1 ++ ": ".data ++ v ++ "; ".data) css
          css ++ "\x7d ".data) css) ([] : List Char)
  if css ≠ [] then
    let cg := emitCG "// Injected Styles".data cg
    let cg := emitCG "if (typeof document !== \x27undefined\x27) \x7b".data cg
    let cg := { cg with indent := cg.indent + 1 }
    let cg := emitCG "const style = document.createElement(\x27style\x27);".data cg
    let cg := emitCG ("style.textContent = `".data ++ css ++ "`;".data) cg
    let cg := emitCG "document.head.appendChild(style);".data cg
    let cg := { cg with indent := cg.indent - 1 }
    emitCG "\x7d".data cg
  else cg

def generateComponentCG (c : ComponentNode) (cg : CGState) : CGState :=
  let cg := { cg with componentCounter := cg.componentCounter + 1 }
  let cg := emitCG ("export const ".data ++ c.name ++ " = createComponent(\x7b".data) cg
  let cg := { cg with indent := cg.indent + 1 }
  let cg := emitCG ("name: \x27".data ++ c.name ++ "\x27,".data) cg
  let cg :=
    match c.accessibility.role with
    | some r => emitCG ("role: \x27".data ++ r ++ "\x27,".data) cg
    | none => cg
  let cg :=
    match c.accessibility.label with
    | some l => emitCG ("ariaLabel: \x27".data ++ l ++ "\x27,".data) cg
    | none => cg
  let cg := emitCG "setup(props) \x7b".data cg
  let cg := { cg with indent := cg.indent + 1 }
  let cg := c.states.foldl (fun cg s => generateState s cg) cg
  let cg := c.computed.foldl (fun cg s => generateComputed s cg) cg
  let cg := if c.styles.length > 0 then generateStylesCG c.styles cg else cg
  let cg := c.effects.foldl (fun cg e => generateEffect e cg) cg
  let cg :=
    if c.animations.length > 0 then
      emitCG "const animationController = createAnimationController();".data cg
    else cg
  let cg := c.handlers.foldl (fun cg h => generateEventHandler h c.animations cg) cg
  let cg := emitCG [] cg
  let cg := emitCG "return \x7b".data cg
  let cg := { cg with indent := cg.indent + 1 }
  let cg := c.states.foldl (fun cg s => emitCG (s.name ++ [',']) cg) cg
  let cg := c.computed.foldl (fun cg s => emitCG (s.name ++ [',']) cg) cg
  let cg := c.handlers.foldl
    (fun cg h => emitCG ("handle".data ++ capitalize h.event ++ [',']) cg) cg
  let cg := { cg with indent := cg.indent - 1 }
  let cg := emitCG "\x7d;".data cg
  let cg := { cg with indent := cg.indent - 1 }
  let cg := emitCG "\x7d,".data cg
  let cg := emitCG "render(ctx) \x7b".data cg
  let cg := { cg with indent := cg.indent + 1 }
  let cg := emitCG "return [".data cg
  let cg := { cg with indent := cg.indent + 1 }
  let cg := c.body.foldl (fun cg el => generateElement el cg) cg
  let cg := { cg with indent := cg.indent - 1 }
  let cg := emitCG "];".data cg
  let cg := { cg with indent := cg.indent - 1 }
  let cg := emitCG "\x7d".data cg
  let cg := { cg with indent := cg.indent - 1 }
  emitCG "\x7d);".data cg

def generateSpaceCG (s : SpaceNode) (cg : CGState) : CGState :=
  let cg := emitCG ("export const ".data ++ s.name ++ " = createSpace(".data) cg
  let cg := { cg with indent := cg.indent + 1 }
  let cg := emitCG ("\x27".data ++ s.name ++ "\x27,".data) cg
  let cg := emitCG "\x7b".data cg
  let cg := { cg with indent := cg.indent + 1 }
  let cg := s.states.foldl
    (fun cg st => emitCG (st.name ++ ": ".data
      ++ generateExpression st.initialValue ++ [',']) cg) cg
  let cg := { cg with indent := cg.indent - 1 }
  let cg := emitCG "\x7d,".data cg
  let cg := emitCG "\x7b".data cg
  let cg := { cg with indent := cg.indent + 1 }
  let cg := s.computed.foldl
    (fun cg c => emitCG (c.name ++ ": function() \x7b return ".data
      ++ generateExpression c.expression ++ "; \x7d,".data) cg) cg
  let cg := { cg with indent := cg.indent - 1 }
  let cg := emitCG "\x7d,".data cg
  let cg := emitCG "[".data cg
  let cg := { cg with indent := cg.indent + 1 }
  let cg := s.effects.foldl
    (fun cg e =>
      let cg := emitCG "function() \x7b".data cg
      let cg := { cg with indent := cg.indent + 1 }
      let cg := e.body.foldl
        (fun cg stmt => emitCG (generateStatement stmt ++ [';']) cg) cg
      let cg := { cg with indent := cg.indent - 1 }
      emitCG "\x7d,".data cg) cg
  let cg := { cg with indent := cg.indent - 1 }
  let cg := emitCG "]".data cg
  let cg := { cg with indent := cg.indent - 1 }
  emitCG ");".data cg

/-- `CodeGenerator.generate`. -/
def generate (p : Program) (options : CodeGenOptions) : List Char :=
  let cg : CGState := {}
  let cg := emitCG ("import \x7b createComponent, createSignal, createComputed, "
    ++ "createEffect, createElement, mount \x7d from \x27@aura/runtime\x27;").data cg
  let cg := emitCG "import \x7b createSpace \x7d from \x27@aura/runtime/store.js\x27;".data cg
  let cg := emitCG "import \x7b createAnimationController \x7d from \x27@aura/animation\x27;".data cg
  let cg := emitCG [] cg
  let cg := p.components.foldl
    (fun cg c => emitCG [] (generateComponentCG c cg)) cg
  let cg := p.spaces.foldl
    (fun cg s => emitCG [] (generateSpaceCG s cg)) cg
  let cg := if p.styles.length > 0 then generateStylesCG p.styles cg else cg
  joinWith ['\n'] cg.output

/-! ## Compiler pipeline (src/compiler/index.ts)

`compile` takes the parser fuel; `none` means the parser would not
have terminated (possible in the source: e.g. the style-rule loop on a
non-selector token neither consumes nor errors out). -/

structure CompileOptions where
  strict : Bool := false
  minify : Bool := false
  explain : Bool := false

structure CompileError where
  message : List Char
  line : Nat
  column : Nat
deriving DecidableEq, Repr

structure CompileWarning where
  message : List Char
  line : Nat
  column : Nat
deriving DecidableEq, Repr

structure CompileResult where
  code : List Char
  errors : List CompileError
  warnings : List CompileWarning
  astOut : Option Program := none
  explanation : Option (List Char) := none

/-- `generateExplanation` (only attached under `explain`). -/
def generateExplanation (p : Program) (code : List Char) : List Char :=
  let lines : List (List Char) :=
    ["=== Compilation Explanation ===\n".data,
     ("Components found: ".data ++ (toString p.components.length).data ++ ['\n'])] ++
    (p.components.map (fun c =>
      ("\nComponent: ".data ++ c.name) ++ '\n' ::
      ("  - States: ".data ++ (toString c.states.length).data) ++ '\n' ::
      ("  - Computed: ".data ++ (toString c.computed.length).data) ++ '\n' ::
      ("  - Effects: ".data ++ (toString c.effects.length).data) ++ '\n' ::
      ("  - Event Handlers: ".data ++ (toString c.handlers.length).data) ++ '\n' ::
      ("  - Animations: ".data ++ (toString c.animations.length).data) ++ '\n' ::
      ("  - Elements: ".data ++ (toString c.body.length).data) ++
      (match c.accessibility.role with
       | some r => '\n' :: ("  - Accessibility Role: ".data ++ r)
       | none => []))) ++
    ["\n=== Generated Code ===\n".data, code]
  joinWith ['\n'] lines

/-- `Compiler.compile`: lexer, then parser, then (strict) semantic
analysis, then code generation; code is emitted only when no stage
reported an error and the parser produced an AST. -/
def compile (fuel : Nat) (source : List Char) (options : CompileOptions) :
    Option CompileResult :=
  let lx := tokenize source
  let errors1 : List CompileError :=
    lx.errors.map (fun e => ⟨e.message, e.line, e.column⟩)
  if errors1.length > 0 then
    some { code := [], errors := errors1, warnings := [] }
  else
    match parse fuel lx.tokens with
    | none => none
    | some (ast, perrors) =>
        let errors2 := errors1 ++
          perrors.map (fun e => (⟨e.message, e.line, e.column⟩ : CompileError))
        match ast with
        | none => some { code := [], errors := errors2, warnings := [] }
        | some prog =>
            if errors2.length > 0 then
              some { code := [], errors := errors2, warnings := [] }
            else
              let sem := if options.strict then analyze prog else ([], [])
              let errors3 := errors2 ++
                sem.1.map (fun e => (⟨e.message, e.line, e.column⟩ : CompileError))
              let warnings3 :=
                sem.2.map (fun w => (⟨w.message, w.line, w.column⟩ : CompileWarning))
              if errors3.length > 0 then
                some { code := [], errors := errors3, warnings := warnings3
                       astOut := if options.explain then some prog else none }
              else
                let code := generate prog
                  { minify := options.minify, sourceMaps := false }
                if options.explain then
                  some { code := code, errors := errors3, warnings := warnings3
                         astOut := some prog
                         explanation := some (generateExplanation prog code) }
                else
                  some { code := code, errors := errors3, warnings := warnings3 }

/-! ### Claim C9: parse yields a Program iff a component was parsed -/

theorem checkP_component_false (tks : List Token) (st : PState)
    (h : TokenType.COMPONENT ∉ tks.map Token.type) :
    checkP tks st .COMPONENT = false := by
  simp only [checkP, isAtEndP]
  by_cases hlt : st.current < tks.length
  · have hmem : peekP tks st ∈ tks := by
      simp only [peekP, List.getD_eq_getElem?_getD]
      rw [List.getElem?_eq_getElem hlt]
      exact List.getElem_mem _
    have hne : (peekP tks st).type ≠ .COMPONENT := by
      intro he
      exact h (he ▸ List.mem_map_of_mem Token.type hmem)
    simp [hne]
  · have hdef : peekP tks st = defaultToken := by
      simp only [peekP]
      exact List.getD_eq_default _ _ (Nat.le_of_not_lt hlt)
    simp [hdef, defaultToken]

theorem parseTopLoop_no_component (tks : List Token)
    (h : TokenType.COMPONENT ∉ tks.map Token.type) :
    ∀ (fuel : Nat) (st : PState) (comps : List ComponentNode)
      (spaces : List SpaceNode) (styles : List StyleNode)
      (res : (List ComponentNode × List SpaceNode × List StyleNode) × PState),
      parseTopLoop tks fuel st comps spaces styles = some res →
      res.1.1 = comps := by
  intro fuel
  induction fuel with
  | zero =>
      intro st comps spaces styles res hp
      rw [parseTopLoop] at hp
      exact absurd hp (by simp)
  | succ f ih =>
      intro st comps spaces styles res hp
      rw [parseTopLoop] at hp
      by_cases h1 : isAtEndP tks st = true
      · simp only [h1, if_true] at hp
        obtain ⟨rfl⟩ := Option.some.injEq _ _ ▸ hp
        injection hp with hp2
        rw [← hp2]
      · have h2 := checkP_component_false tks st h
        simp only [h1, if_false, h2, Bool.false_eq_true] at hp
        by_cases h3 : checkP tks st .SPACE = true
        · simp only [h3, if_true] at hp
          cases hps : parseSpace tks f st with
          | none => rw [hps] at hp; exact absurd hp (by simp)
          | some r2 =>
              rw [hps] at hp
              exact ih _ _ _ _ _ hp
        · simp only [h3, Bool.false_eq_true, if_false] at hp
          by_cases h4 : checkP tks st .STYLE = true
          · simp only [h4, if_true] at hp
            cases hps : parseStyle tks f st with
            | none => rw [hps] at hp; exact absurd hp (by simp)
            | some r2 =>
                rw [hps] at hp
                exact ih _ _ _ _ _ hp
          · simp only [h4, Bool.false_eq_true, if_false] at hp
            exact ih _ _ _ _ _ hp

/-- Claim C9: (1) whenever `parse` returns a non-null `Program`, its
component list is non-empty (the AST is null unless at least one
component declaration was collected); (2) on any token stream without
a single `component` keyword token — in particular one made only of
space/style declarations — `parse` returns a null AST; (3) compiling
such a source (a valid style followed by a valid space) returns empty
code and an empty error list: no output and no diagnostics. -/
theorem claim_C9 :
    (∀ (fuel : Nat) (ts : List Token) (r : Option Program × List ParserError)
       (p : Program), parse fuel ts = some r → r.1 = some p →
       p.components ≠ []) ∧
    (∀ (fuel : Nat) (ts : List Token) (r : Option Program × List ParserError),
       TokenType.COMPONENT ∉ ts.map Token.type →
       parse fuel ts = some r → r.1 = none) ∧
    ((compile 99 "style:\n  .a:\n    color: \"red\"\nspace S:\n  state n = 0".data
        {}).map (fun r => (r.code, r.errors, r.warnings))
      = some ([], [], [])) := by
  refine ⟨?_, ?_, ?_⟩
  · intro fuel ts r p hp hsome
    rw [parse] at hp
    cases htl : parseTopLoop (filterTokens ts) fuel ⟨0, []⟩ [] [] [] with
    | none => rw [htl] at hp; exact absurd hp (by simp)
    | some res =>
        rw [htl] at hp
        injection hp with hp2
        rw [← hp2] at hsome
        rcases hc : res.1.1 with _ | ⟨c, rest⟩
        · rw [hc] at hsome
          simp at hsome
        · rw [hc] at hsome
          simp only [List.length_cons, Nat.succ_ne_zero, gt_iff_lt,
            Nat.zero_lt_succ, if_true] at hsome
          injection hsome with hs2
          rw [← hs2]
          simp
  · intro fuel ts r hnc hp
    have hnf : TokenType.COMPONENT ∉ (filterTokens ts).map Token.type := by
      intro hmem
      rcases List.mem_map.mp hmem with ⟨t, htm, hty⟩
      have htm2 : t ∈ ts := (List.mem_filter.mp htm).1
      exact hnc (hty ▸ List.mem_map_of_mem Token.type htm2)
    rw [parse] at hp
    cases htl : parseTopLoop (filterTokens ts) fuel ⟨0, []⟩ [] [] [] with
    | none => rw [htl] at hp; exact absurd hp (by simp)
    | some res =>
        rw [htl] at hp
        have hcomps := parseTopLoop_no_component (filterTokens ts) hnf fuel
          ⟨0, []⟩ [] [] [] res htl
        injection hp with hp2
        rw [← hp2, hcomps]
        simp
  · rfl

def C9ts : List Token := (tokenize "space S:\n  state n = 0".data).tokens

theorem claim_C9_witness :
    ((parse 99 C9ts).getD (none, [])).1 = none ∧
    TokenType.COMPONENT ∉ C9ts.map Token.type :=
  ⟨claim_C9.2.1 99 C9ts ((parse 99 C9ts).getD (none, [])) (by decide) rfl,
   by decide⟩

/-! ### Claim C4: no code in the presence of errors -/

/-- Counterexample to C4 as stated: on the empty source the parser
yields no AST (so the claim demands a non-empty error list), yet
`compile` returns empty code **and an empty error list**. -/
theorem claim_C4_counterexample :
    ((parse 99 (tokenize "".data).tokens).map (fun r => (r.1.isNone, r.2))
      = some (true, [])) ∧
    ((compile 99 "".data {}).map (fun r => (r.code, r.errors))
      = some ([], [])) :=
  ⟨rfl, rfl⟩

/-- Claim C4 as amended: code is the empty string whenever the lexer
reports an error, or the parser reports an error or yields no AST, or
(strict) the semantic analyzer reports an error; the error list is
non-empty whenever some stage actually reported an error (but may be
empty when the parser merely yields no AST without reporting any, as
for a component-free source); and the otherwise-error-free `img`
component without `alt`, compiled strict, yields exactly one semantic
error and empty code. -/
theorem claim_C4 :
    (∀ (fuel : Nat) (source : List Char) (opts : CompileOptions),
      (tokenize source).errors ≠ [] →
      ∃ r, compile fuel source opts = some r ∧ r.code = [] ∧ r.errors ≠ []) ∧
    (∀ (fuel : Nat) (source : List Char) (opts : CompileOptions)
       (a : Option Program) (perrs : List ParserError),
      (tokenize source).errors = [] →
      parse fuel (tokenize source).tokens = some (a, perrs) →
      (a = none ∨ perrs ≠ []) →
      ∃ r, compile fuel source opts = some r ∧ r.code = [] ∧
        (perrs ≠ [] → r.errors ≠ [])) ∧
    (∀ (fuel : Nat) (source : List Char) (opts : CompileOptions)
       (prog : Program),
      opts.strict = true →
      (tokenize source).errors = [] →
      parse fuel (tokenize source).tokens = some (some prog, []) →
      (analyze prog).1 ≠ [] →
      ∃ r, compile fuel source opts = some r ∧ r.code = [] ∧ r.errors ≠ []) ∧
    (compile 99 "component A:\n  img src=\"x\"".data { strict := true }
      = some { code := []
               errors := [⟨"Image element must have alt attribute".data, 2, 3⟩]
               warnings := [] }) := by
  refine ⟨?_, ?_, ?_, ?_⟩
  · intro fuel source opts h
    have hlen : ((tokenize source).errors.map
        (fun e : LexerError => (⟨e.message, e.line, e.column⟩ : CompileError))).length > 0 := by
      simpa [List.length_pos] using h
    have heq : compile fuel source opts = some
        { code := [], errors := (tokenize source).errors.map
            (fun e => ⟨e.message, e.line, e.column⟩), warnings := [] } := by
      simp only [compile]
      rw [if_pos hlen]
    refine ⟨_, heq, rfl, ?_⟩
    simpa [List.map_eq_nil_iff] using h
  · intro fuel source opts a perrs hlex hp hbad
    have hlen0 : ¬ (((tokenize source).errors.map
        (fun e : LexerError => (⟨e.message, e.line, e.column⟩ : CompileError))).length > 0) := by
      simp [hlex]
    cases a with
    | none =>
        have heq : compile fuel source opts = some
            { code := []
              errors := perrs.map (fun e => ⟨e.message, e.line, e.column⟩)
              warnings := [] } := by
          simp only [compile]
          rw [if_neg hlen0, hp]
          simp [hlex]
        refine ⟨_, heq, rfl, fun hne => ?_⟩
        simpa [List.map_eq_nil_iff] using hne
    | some prog =>
        rcases hbad with h' | hne
        · exact absurd h' (by simp)
        · have heq : compile fuel source opts = some
              { code := []
                errors := perrs.map (fun e => ⟨e.message, e.line, e.column⟩)
                warnings := [] } := by
            simp only [compile]
            rw [if_neg hlen0, hp]
            simp only [hlex, List.map_nil, List.nil_append]
            rw [if_pos (by simpa [List.length_pos, List.map_eq_nil_iff] using hne)]
          refine ⟨_, heq, rfl, fun _ => ?_⟩
          simpa [List.map_eq_nil_iff] using hne
  · intro fuel source opts prog hstrict hlex hp hsem
    have hlen0 : ¬ (((tokenize source).errors.map
        (fun e : LexerError => (⟨e.message, e.line, e.column⟩ : CompileError))).length > 0) := by
      simp [hlex]
    have heq : compile fuel source opts = some
        { code := []
          errors := (analyze prog).1.map (fun e => ⟨e.message, e.line, e.column⟩)
          warnings := (analyze prog).2.map (fun w => ⟨w.message, w.line, w.column⟩)
          astOut := if opts.explain then some prog else none } := by
      simp only [compile]
      rw [if_neg hlen0, hp]
      simp only [hlex, List.map_nil, List.nil_append, List.map_nil]
      rw [if_neg (by simp), hstrict]
      simp only [if_true]
      rw [if_pos (by simpa [List.length_pos, List.map_eq_nil_iff] using hsem)]
    refine ⟨_, heq, rfl, ?_⟩
    simpa [List.map_eq_nil_iff] using hsem
  · rfl
def C4src : List Char := "component A:\n  img src=\"x\"".data

def C4prog : Program :=
  (((parse 99 (tokenize C4src).tokens).getD (none, [])).1).getD ⟨[], [], [], 0, 0⟩

theorem claim_C4_witness :
    ((tokenize "@".data).errors ≠ [] ∧
      ∃ r, compile 7 "@".data {} = some r ∧ r.code = [] ∧ r.errors ≠ []) ∧
    (∃ r, compile 99 "".data {} = some r ∧ r.code = [] ∧
      (([] : List ParserError) ≠ [] → r.errors ≠ [])) ∧
    ((analyze C4prog).1 ≠ [] ∧
      ∃ r, compile 99 C4src { strict := true } = some r ∧
        r.code = [] ∧ r.errors ≠ []) := by
  refine ⟨⟨by decide, claim_C4.1 7 "@".data {} (by decide)⟩, ?_, ?_⟩
  · exact claim_C4.2.1 99 "".data {} none [] (by decide) rfl (Or.inl rfl)
  · exact ⟨by decide,
      claim_C4.2.2.1 99 C4src { strict := true } C4prog rfl (by decide)
        rfl (by decide)⟩

/-! ### Claim C7: top-level declaration count -/

/-- A `component`/`space`/`style` keyword token. -/
def isDeclKeyword (t : Token) : Bool :=
  match t.type with
  | .COMPONENT => true
  | .SPACE => true
  | .STYLE => true
  | _ => false

/-- Total number of top-level declarations of a `parse` result. -/
def declCount (r : Option Program × List ParserError) : Nat :=
  match r.1 with
  | some p => p.components.length + p.spaces.length + p.styles.length
  | none => 0

def styleTok : Token := ⟨.STYLE, "style".data, 1, 1⟩
def colonTok : Token := ⟨.COLON, [':'], 1, 1⟩
def spaceTok : Token := ⟨.SPACE, "space".data, 1, 1⟩
def compTok : Token := ⟨.COMPONENT, "component".data, 1, 1⟩
def identSTok : Token := ⟨.IDENTIFIER, ['S'], 1, 1⟩
def identATok : Token := ⟨.IDENTIFIER, ['A'], 1, 1⟩
def eofTok : Token := ⟨.EOF, [], 2, 1⟩

/-- Minimal top-level declarations, as token blocks. -/
def styleBlk : List Token := [styleTok, colonTok]

def spaceBlk : List Token := [spaceTok, identSTok, colonTok]

def compBlk : List Token := [compTok, identATok, colonTok]

def styleNodeC : StyleNode := ⟨[], 1, 1⟩

def spaceNodeC : SpaceNode := ⟨['S'], [], [], [], [], 1, 1⟩

def compNodeC : ComponentNode := ⟨['A'], [], [], [], [], [], [], [], [], {}, 1, 1⟩

/-- A token stream of `nS` styles, then `nSp` spaces, then `nC` components. -/
def C7stream (nS nSp nC : Nat) : List Token :=
  (List.replicate nS styleBlk).join ++ ((List.replicate nSp spaceBlk).join ++
    ((List.replicate nC compBlk).join ++ [eofTok]))

theorem peekP_at (pre l : List Token) (k : Nat) (e : List ParserError) :
    peekP (pre ++ l) ⟨pre.length + k, e⟩ = l.getD k defaultToken := by
  unfold peekP List.getD
  simp only []
  rw [List.get?_append_right (Nat.le_add_right _ _), Nat.add_sub_cancel_left]

theorem previousP_at (pre l : List Token) (k : Nat) (e : List ParserError) :
    previousP (pre ++ l) ⟨pre.length + (k + 1), e⟩ = l.getD k defaultToken := by
  have h : pre.length + (k + 1) - 1 = pre.length + k := by omega
  unfold previousP List.getD
  simp only []
  rw [h, List.get?_append_right (Nat.le_add_right _ _), Nat.add_sub_cancel_left]

theorem parseStyle_blk (f : Nat) (pre rest : List Token) (e : List ParserError)
    (hb : (rest.getD 0 defaultToken).type = .COMPONENT ∨
          (rest.getD 0 defaultToken).type = .SPACE ∨
          (rest.getD 0 defaultToken).type = .STYLE ∨
          (rest.getD 0 defaultToken).type = .EOF) :
    parseStyle (pre ++ (styleBlk ++ rest)) (f + 2) ⟨pre.length, e⟩ =
      some (some styleNodeC, ⟨pre.length + 2, e⟩) := by
  have h0 : peekP (pre ++ (styleBlk ++ rest)) ⟨pre.length, e⟩ = styleTok := by
    simpa [styleBlk] using peekP_at pre (styleBlk ++ rest) 0 e
  have h1 : peekP (pre ++ (styleBlk ++ rest)) ⟨pre.length + 1, e⟩ = colonTok := by
    simpa [styleBlk] using peekP_at pre (styleBlk ++ rest) 1 e
  have h2 : peekP (pre ++ (styleBlk ++ rest)) ⟨pre.length + 2, e⟩
      = rest.getD 0 defaultToken := by
    simpa [styleBlk] using peekP_at pre (styleBlk ++ rest) 2 e
  have hprev : previousP (pre ++ (styleBlk ++ rest)) ⟨pre.length + 1, e⟩ = styleTok := by
    simpa [styleBlk] using previousP_at pre (styleBlk ++ rest) 0 e
  generalize rest.getD 0 defaultToken = t0 at h2 hb
  rcases hb with hb | hb | hb | hb <;>
    simp [parseStyle, styleRulesLoop, matchP, checkP, consumeP, advanceT, advancePS,
      isAtEndP, h0, h1, h2, hprev, hb, styleTok, colonTok, styleNodeC, Nat.add_assoc]

theorem parseSpace_blk (f : Nat) (pre rest : List Token) (e : List ParserError)
    (hb : (rest.getD 0 defaultToken).type = .COMPONENT ∨
          (rest.getD 0 defaultToken).type = .SPACE ∨
          (rest.getD 0 defaultToken).type = .EOF) :
    parseSpace (pre ++ (spaceBlk ++ rest)) (f + 2) ⟨pre.length, e⟩ =
      some (some spaceNodeC, ⟨pre.length + 3, e⟩) := by
  have h0 : peekP (pre ++ (spaceBlk ++ rest)) ⟨pre.length, e⟩ = spaceTok := by
    simpa [spaceBlk] using peekP_at pre (spaceBlk ++ rest) 0 e
  have h1 : peekP (pre ++ (spaceBlk ++ rest)) ⟨pre.length + 1, e⟩ = identSTok := by
    simpa [spaceBlk] using peekP_at pre (spaceBlk ++ rest) 1 e
  have h2 : peekP (pre ++ (spaceBlk ++ rest)) ⟨pre.length + 2, e⟩ = colonTok := by
    simpa [spaceBlk] using peekP_at pre (spaceBlk ++ rest) 2 e
  have h3 : peekP (pre ++ (spaceBlk ++ rest)) ⟨pre.length + 3, e⟩
      = rest.getD 0 defaultToken := by
    simpa [spaceBlk] using peekP_at pre (spaceBlk ++ rest) 3 e
  have hprev0 : previousP (pre ++ (spaceBlk ++ rest)) ⟨pre.length + 1, e⟩ = spaceTok := by
    simpa [spaceBlk] using previousP_at pre (spaceBlk ++ rest) 0 e
  have hprev1 : previousP (pre ++ (spaceBlk ++ rest)) ⟨pre.length + 2, e⟩ = identSTok := by
    simpa [spaceBlk] using previousP_at pre (spaceBlk ++ rest) 1 e
  generalize rest.getD 0 defaultToken = t0 at h3 hb
  rcases hb with hb | hb | hb <;>
    simp [parseSpace, spaceBodyLoop, matchP, checkP, consumeP, advanceT, advancePS,
      isAtEndP, h0, h1, h2, h3, hprev0, hprev1, hb, spaceTok, identSTok, colonTok,
      spaceNodeC, Nat.add_assoc]

theorem parseComponent_blk (f : Nat) (pre rest : List Token) (e : List ParserError)
    (hb : (rest.getD 0 defaultToken).type = .COMPONENT ∨
          (rest.getD 0 defaultToken).type = .EOF) :
    parseComponent (pre ++ (compBlk ++ rest)) (f + 2) ⟨pre.length, e⟩ =
      some (some compNodeC, ⟨pre.length + 3, e⟩) := by
  have h0 : peekP (pre ++ (compBlk ++ rest)) ⟨pre.length, e⟩ = compTok := by
    simpa [compBlk] using peekP_at pre (compBlk ++ rest) 0 e
  have h1 : peekP (pre ++ (compBlk ++ rest)) ⟨pre.length + 1, e⟩ = identATok := by
    simpa [compBlk] using peekP_at pre (compBlk ++ rest) 1 e
  have h2 : peekP (pre ++ (compBlk ++ rest)) ⟨pre.length + 2, e⟩ = colonTok := by
    simpa [compBlk] using peekP_at pre (compBlk ++ rest) 2 e
  have h3 : peekP (pre ++ (compBlk ++ rest)) ⟨pre.length + 3, e⟩
      = rest.getD 0 defaultToken := by
    simpa [compBlk] using peekP_at pre (compBlk ++ rest) 3 e
  have hprev0 : previousP (pre ++ (compBlk ++ rest)) ⟨pre.length + 1, e⟩ = compTok := by
    simpa [compBlk] using previousP_at pre (compBlk ++ rest) 0 e
  have hprev1 : previousP (pre ++ (compBlk ++ rest)) ⟨pre.length + 2, e⟩ = identATok := by
    simpa [compBlk] using previousP_at pre (compBlk ++ rest) 1 e
  generalize rest.getD 0 defaultToken = t0 at h3 hb
  rcases hb with hb | hb <;>
    simp [parseComponent, componentBodyLoop, matchP, checkP, consumeP, advanceT,
      advancePS, isAtEndP, h0, h1, h2, h3, hprev0, hprev1, hb, compTok, identATok,
      colonTok, compNodeC, Nat.add_assoc]

theorem headType_comps (n : Nat) :
    (((List.replicate n compBlk).join ++ [eofTok]).getD 0 defaultToken).type
        = TokenType.COMPONENT ∨
    (((List.replicate n compBlk).join ++ [eofTok]).getD 0 defaultToken).type
        = TokenType.EOF := by
  cases n with
  | zero => right; simp [eofTok]
  | succ m => left; simp [List.replicate_succ, compBlk, compTok]

theorem topLoop_comps (nC : Nat) : ∀ (f : Nat) (pre : List Token) (e : List ParserError)
    (comps : List ComponentNode) (spaces : List SpaceNode) (styles : List StyleNode),
    parseTopLoop (pre ++ ((List.replicate nC compBlk).join ++ [eofTok]))
        (3 * nC + (f + 1)) ⟨pre.length, e⟩ comps spaces styles =
      some ((comps ++ List.replicate nC compNodeC, spaces, styles),
        ⟨pre.length + 3 * nC, e⟩) := by
  induction nC with
  | zero =>
      intro f pre e comps spaces styles
      have h0 : peekP (pre ++ [eofTok]) ⟨pre.length, e⟩ = eofTok := by
        simpa using peekP_at pre [eofTok] 0 e
      have ht : eofTok.type = TokenType.EOF := rfl
      simp [parseTopLoop, isAtEndP, h0, ht]
  | succ n ih =>
      intro f pre e comps spaces styles
      have hstream : pre ++ ((List.replicate (n + 1) compBlk).join ++ [eofTok])
          = pre ++ (compBlk ++ ((List.replicate n compBlk).join ++ [eofTok])) := by
        simp [List.replicate_succ]
      rw [hstream]
      have hfuel : 3 * (n + 1) + (f + 1) = (3 * n + f + 1 + 2) + 1 := by ring
      rw [hfuel]
      have h0 : peekP (pre ++ (compBlk ++ ((List.replicate n compBlk).join ++ [eofTok])))
          ⟨pre.length, e⟩ = compTok := by
        simpa [compBlk] using
          peekP_at pre (compBlk ++ ((List.replicate n compBlk).join ++ [eofTok])) 0 e
      have hcomp := parseComponent_blk (3 * n + f + 1) pre
        ((List.replicate n compBlk).join ++ [eofTok]) e (headType_comps n)
      rw [parseTopLoop, if_neg (by simp [isAtEndP, h0, compTok]),
        if_pos (by simp [checkP, isAtEndP, h0, compTok]), hcomp]
      simp only []
      have hIH := ih (f + 2) (pre ++ compBlk) e (comps ++ [compNodeC]) spaces styles
      rw [List.append_assoc] at hIH
      simpa [compBlk, Nat.add_assoc, Nat.add_comm, Nat.add_left_comm, Nat.mul_succ,
        List.replicate_succ] using hIH

theorem headType_spaces (m nC : Nat) :
    ((((List.replicate m spaceBlk).join ++
        ((List.replicate nC compBlk).join ++ [eofTok])).getD 0 defaultToken).type
        = TokenType.COMPONENT) ∨
    ((((List.replicate m spaceBlk).join ++
        ((List.replicate nC compBlk).join ++ [eofTok])).getD 0 defaultToken).type
        = TokenType.SPACE) ∨
    ((((List.replicate m spaceBlk).join ++
        ((List.replicate nC compBlk).join ++ [eofTok])).getD 0 defaultToken).type
        = TokenType.EOF) := by
  cases m with
  | zero =>
      cases nC with
      | zero => right; right; simp [eofTok]
      | succ k => left; simp [List.replicate_succ, compBlk, compTok]
  | succ k => right; left; simp [List.replicate_succ, spaceBlk, spaceTok]

theorem topLoop_spaces (nSp : Nat) : ∀ (nC f : Nat) (pre : List Token)
    (e : List ParserError) (comps : List ComponentNode) (spaces : List SpaceNode)
    (styles : List StyleNode),
    parseTopLoop (pre ++ ((List.replicate nSp spaceBlk).join ++
        ((List.replicate nC compBlk).join ++ [eofTok])))
        (3 * nSp + (3 * nC + (f + 1))) ⟨pre.length, e⟩ comps spaces styles =
      some ((comps ++ List.replicate nC compNodeC,
             spaces ++ List.replicate nSp spaceNodeC, styles),
        ⟨pre.length + (3 * nSp + 3 * nC), e⟩) := by
  induction nSp with
  | zero =>
      intro nC f pre e comps spaces styles
      simpa using topLoop_comps nC f pre e comps spaces styles
  | succ m ih =>
      intro nC f pre e comps spaces styles
      have hstream : pre ++ ((List.replicate (m + 1) spaceBlk).join ++
            ((List.replicate nC compBlk).join ++ [eofTok]))
          = pre ++ (spaceBlk ++ ((List.replicate m spaceBlk).join ++
            ((List.replicate nC compBlk).join ++ [eofTok]))) := by
        simp [List.replicate_succ]
      rw [hstream]
      have hfuel : 3 * (m + 1) + (3 * nC + (f + 1))
          = (3 * m + 3 * nC + f + 1 + 2) + 1 := by ring
      rw [hfuel]
      have h0 : peekP (pre ++ (spaceBlk ++ ((List.replicate m spaceBlk).join ++
            ((List.replicate nC compBlk).join ++ [eofTok])))) ⟨pre.length, e⟩
          = spaceTok := by
        simpa [spaceBlk] using peekP_at pre (spaceBlk ++
          ((List.replicate m spaceBlk).join ++
            ((List.replicate nC compBlk).join ++ [eofTok]))) 0 e
      have hspace := parseSpace_blk (3 * m + 3 * nC + f + 1) pre
        ((List.replicate m spaceBlk).join ++
          ((List.replicate nC compBlk).join ++ [eofTok])) e (headType_spaces m nC)
      rw [parseTopLoop, if_neg (by simp [isAtEndP, h0, spaceTok]),
        if_neg (by simp [checkP, isAtEndP, h0, spaceTok]),
        if_pos (by simp [checkP, isAtEndP, h0, spaceTok]), hspace]
      simp only []
      have hIH := ih nC (f + 2) (pre ++ spaceBlk) e comps (spaces ++ [spaceNodeC]) styles
      rw [List.append_assoc] at hIH
      simpa [spaceBlk, Nat.add_assoc, Nat.add_comm, Nat.add_left_comm, Nat.mul_succ,
        List.replicate_succ] using hIH

theorem headType_styles (k nSp nC : Nat) :
    ((((List.replicate k styleBlk).join ++ ((List.replicate nSp spaceBlk).join ++
        ((List.replicate nC compBlk).join ++ [eofTok]))).getD 0 defaultToken).type
        = TokenType.COMPONENT) ∨
    ((((List.replicate k styleBlk).join ++ ((List.replicate nSp spaceBlk).join ++
        ((List.replicate nC compBlk).join ++ [eofTok]))).getD 0 defaultToken).type
        = TokenType.SPACE) ∨
    ((((List.replicate k styleBlk).join ++ ((List.replicate nSp spaceBlk).join ++
        ((List.replicate nC compBlk).join ++ [eofTok]))).getD 0 defaultToken).type
        = TokenType.STYLE) ∨
    ((((List.replicate k styleBlk).join ++ ((List.replicate nSp spaceBlk).join ++
        ((List.replicate nC compBlk).join ++ [eofTok]))).getD 0 defaultToken).type
        = TokenType.EOF) := by
  cases k with
  | zero =>
      cases nSp with
      | zero =>
          cases nC with
          | zero => right; right; right; simp [eofTok]
          | succ j => left; simp [List.replicate_succ, compBlk, compTok]
      | succ j => right; left; simp [List.replicate_succ, spaceBlk, spaceTok]
  | succ j => right; right; left; simp [List.replicate_succ, styleBlk, styleTok]

theorem topLoop_styles (nS : Nat) : ∀ (nSp nC f : Nat) (pre : List Token)
    (e : List ParserError) (comps : List ComponentNode) (spaces : List SpaceNode)
    (styles : List StyleNode),
    parseTopLoop (pre ++ ((List.replicate nS styleBlk).join ++
        ((List.replicate nSp spaceBlk).join ++
          ((List.replicate nC compBlk).join ++ [eofTok]))))
        (3 * nS + (3 * nSp + (3 * nC + (f + 1)))) ⟨pre.length, e⟩ comps spaces styles =
      some ((comps ++ List.replicate nC compNodeC,
             spaces ++ List.replicate nSp spaceNodeC,
             styles ++ List.replicate nS styleNodeC),
        ⟨pre.length + (2 * nS + (3 * nSp + 3 * nC)), e⟩) := by
  induction nS with
  | zero =>
      intro nSp nC f pre e comps spaces styles
      simpa using topLoop_spaces nSp nC f pre e comps spaces styles
  | succ k ih =>
      intro nSp nC f pre e comps spaces styles
      have hstream : pre ++ ((List.replicate (k + 1) styleBlk).join ++
            ((List.replicate nSp spaceBlk).join ++
              ((List.replicate nC compBlk).join ++ [eofTok])))
          = pre ++ (styleBlk ++ ((List.replicate k styleBlk).join ++
            ((List.replicate nSp spaceBlk).join ++
              ((List.replicate nC compBlk).join ++ [eofTok])))) := by
        simp [List.replicate_succ]
      rw [hstream]
      have hfuel : 3 * (k + 1) + (3 * nSp + (3 * nC + (f + 1)))
          = (3 * k + 3 * nSp + 3 * nC + f + 1 + 2) + 1 := by ring
      rw [hfuel]
      have h0 : peekP (pre ++ (styleBlk ++ ((List.replicate k styleBlk).join ++
            ((List.replicate nSp spaceBlk).join ++
              ((List.replicate nC compBlk).join ++ [eofTok]))))) ⟨pre.length, e⟩
          = styleTok := by
        simpa [styleBlk] using peekP_at pre (styleBlk ++
          ((List.replicate k styleBlk).join ++
            ((List.replicate nSp spaceBlk).join ++
              ((List.replicate nC compBlk).join ++ [eofTok])))) 0 e
      have hstyle := parseStyle_blk (3 * k + 3 * nSp + 3 * nC + f + 1) pre
        ((List.replicate k styleBlk).join ++
          ((List.replicate nSp spaceBlk).join ++
            ((List.replicate nC compBlk).join ++ [eofTok]))) e
        (headType_styles k nSp nC)
      rw [parseTopLoop, if_neg (by simp [isAtEndP, h0, styleTok]),
        if_neg (by simp [checkP, isAtEndP, h0, styleTok]),
        if_neg (by simp [checkP, isAtEndP, h0, styleTok]),
        if_pos (by simp [checkP, isAtEndP, h0, styleTok]), hstyle]
      simp only []
      have hIH := ih nSp nC (f + 2) (pre ++ styleBlk) e comps spaces
        (styles ++ [styleNodeC])
      rw [List.append_assoc] at hIH
      simpa [styleBlk, Nat.add_assoc, Nat.add_comm, Nat.add_left_comm, Nat.mul_succ,
        List.replicate_succ] using hIH

theorem filter_join_replicate (p : Token → Bool) (bl : List Token)
    (h : bl.filter p = bl) (n : Nat) :
    ((List.replicate n bl).join).filter p = (List.replicate n bl).join := by
  induction n with
  | zero => simp
  | succ m ih => simp [List.replicate_succ, List.filter_append, h, ih]

theorem filterTokens_C7 (nS nSp nC : Nat) :
    filterTokens (C7stream nS nSp nC) = C7stream nS nSp nC := by
  unfold filterTokens C7stream
  rw [List.filter_append, List.filter_append, List.filter_append,
    filter_join_replicate
      (fun t => t.type ≠ .NEWLINE && t.type ≠ .INDENT && t.type ≠ .DEDENT)
      styleBlk rfl nS,
    filter_join_replicate
      (fun t => t.type ≠ .NEWLINE && t.type ≠ .INDENT && t.type ≠ .DEDENT)
      spaceBlk rfl nSp,
    filter_join_replicate
      (fun t => t.type ≠ .NEWLINE && t.type ≠ .INDENT && t.type ≠ .DEDENT)
      compBlk rfl nC]
  rfl

theorem countP_join_replicate (p : Token → Bool) (bl : List Token) (n : Nat) :
    ((List.replicate n bl).join).countP p = n * bl.countP p := by
  induction n with
  | zero => simp
  | succ m ih =>
      simp [List.replicate_succ, List.countP_append, ih, Nat.succ_mul, Nat.add_comm]

def C7src : List Char := "component A:\nspace S:".data

/-- Counterexample to C7 as stated: a component followed by a space is a
valid, indentation-correct source with two declaration keywords, yet the
component body loop swallows the `space` declaration (it only stops on
`component`), so the Program has a single top-level declaration — with no
lexer or parser error reported. -/
theorem claim_C7_counterexample :
    (tokenize C7src).errors = [] ∧
    ((parse 99 (tokenize C7src).tokens).map (fun r => (declCount r, r.2))
      = some (1, [])) ∧
    (tokenize C7src).tokens.countP isDeclKeyword = 2 :=
  ⟨rfl, rfl, rfl⟩

/-- Claim C7 as amended: the declaration-count identity does hold for
token streams whose top-level declarations are ordered styles first, then
spaces, then components (with at least one component, so that `parse`
yields a Program): parsing `nS` styles, `nSp` spaces and `nC + 1`
components yields a Program with exactly `nS + nSp + (nC + 1)` top-level
declarations and no error, matching the number of declaration keywords in
the stream. -/
theorem claim_C7 : ∀ nS nSp nC : Nat,
    ((parse (3 * nS + (3 * nSp + (3 * (nC + 1) + 1))) (C7stream nS nSp (nC + 1))).map
        (fun r => (declCount r, r.2)))
      = some (nS + nSp + (nC + 1), ([] : List ParserError)) ∧
    (C7stream nS nSp (nC + 1)).countP isDeclKeyword = nS + nSp + (nC + 1) := by
  intro nS nSp nC
  constructor
  · have htop := topLoop_styles nS nSp (nC + 1) 0 ([] : List Token) [] [] [] []
    simp only [List.nil_append, List.length_nil, Nat.zero_add] at htop
    simp only [parse, filterTokens_C7]
    unfold C7stream
    rw [htop]
    simp [declCount, List.length_replicate]
    omega
  · have h1 : styleBlk.countP isDeclKeyword = 1 := rfl
    have h2 : spaceBlk.countP isDeclKeyword = 1 := rfl
    have h3 : compBlk.countP isDeclKeyword = 1 := rfl
    have h4 : List.countP isDeclKeyword [eofTok] = 0 := rfl
    unfold C7stream
    rw [List.countP_append, List.countP_append, List.countP_append,
      countP_join_replicate, countP_join_replicate, countP_join_replicate,
      h1, h2, h3, h4]
    omega

/-! ## Formatter (src/cli/formatter.ts)

`AuraFormatter.format` tokenizes the raw source (structural tokens
included) and re-emits text from the token stream.  Mutable `indent` /
`output` become `FmtState`; `tokens[i]` out-of-range access (TS
`undefined`) is modelled with `getD defaultToken`; unbounded `while`
loops take fuel, `none` marking non-termination.  Options keep their
constructor defaults (indentSize 2, insertFinalNewline true). -/

structure FormatterOptions where
  indentSize : Nat := 2
  maxLineLength : Nat := 100
  insertFinalNewline : Bool := true

structure FmtState where
  indent : Nat := 0
  output : List (List Char) := []

def isStatementEnd (t : Token) : Bool :=
  t.type = .NEWLINE || t.type = .EOF || t.type = .COMPONENT || t.type = .STATE ||
  t.type = .COMPUTED || t.type = .EFFECT || t.type = .ON || t.type = .ANIMATE ||
  t.type = .ROLE || t.type = .LABEL

def emit (o : FormatterOptions) (st : FmtState) (line : List Char) : FmtState :=
  { st with output := st.output ++
      [List.replicate (st.indent * o.indentSize) ' ' ++ line] }

/-- `while (i < tokens.length && !this.isStatementEnd(tokens[i]))` collector. -/
def collectUntilEnd (tks : List Token) : Nat → Nat → Option (List Token × Nat)
  | 0, _ => none
  | f + 1, i =>
      if i < tks.length ∧ ¬ isStatementEnd (tks.getD i defaultToken) then
        match collectUntilEnd tks f (i + 1) with
        | none => none
        | some (vs, j) => some (tks.getD i defaultToken :: vs, j)
      else some ([], i)

/-- The value collector of `formatAnimation` (also stops at a comma). -/
def collectAnimVal (tks : List Token) : Nat → Nat → Option (List Token × Nat)
  | 0, _ => none
  | f + 1, i =>
      if i < tks.length ∧ ¬ (tks.getD i defaultToken).type = .COMMA ∧
          ¬ isStatementEnd (tks.getD i defaultToken) then
        match collectAnimVal tks f (i + 1) with
        | none => none
        | some (vs, j) => some (tks.getD i defaultToken :: vs, j)
      else some ([], i)

/-- The dependency scan of `formatEffect` (no bounds guard in the code:
running off the end never meets an RPAREN and spins forever). -/
def effectDepsF (tks : List Token) : Nat → Nat → Option (List (List Char) × Nat)
  | 0, _ => none
  | f + 1, i =>
      if (tks.getD i defaultToken).type = .RPAREN then some ([], i)
      else if (tks.getD i defaultToken).type = .IDENTIFIER then
        match effectDepsF tks f (i + 1) with
        | none => none
        | some (ds, j) => some ((tks.getD i defaultToken).value :: ds, j)
      else effectDepsF tks f (i + 1)

def formatState (o : FormatterOptions) (tks : List Token) (f : Nat) (st : FmtState)
    (start : Nat) : Option (FmtState × Nat) :=
  let nameToken := tks.getD (start + 1) defaultToken
  match collectUntilEnd tks f (start + 3) with
  | none => none
  | some (vts, j) =>
      some (emit o st ("state ".data ++ nameToken.value ++ " = ".data ++
        joinWith [' '] (vts.map Token.value)), j)

def formatComputed (o : FormatterOptions) (tks : List Token) (f : Nat) (st : FmtState)
    (start : Nat) : Option (FmtState × Nat) :=
  let nameToken := tks.getD (start + 1) defaultToken
  match collectUntilEnd tks f (start + 3) with
  | none => none
  | some (vts, j) =>
      some (emit o st ("computed ".data ++ nameToken.value ++ " = ".data ++
        joinWith [' '] (vts.map Token.value)), j)

def formatEffect (o : FormatterOptions) (tks : List Token) (f : Nat) (st : FmtState)
    (start : Nat) : Option (FmtState × Nat) :=
  match effectDepsF tks f (start + 2) with
  | none => none
  | some (deps, j) =>
      some (emit o st ("effect (".data ++ joinWith ", ".data deps ++ ") =>".data),
        j + 2)

def formatEventHandler (o : FormatterOptions) (tks : List Token) (f : Nat)
    (st : FmtState) (start : Nat) : Option (FmtState × Nat) :=
  let eventToken := tks.getD (start + 1) defaultToken
  match collectUntilEnd tks f (start + 3) with
  | none => none
  | some (vts, j) =>
      some (emit o st ("on ".data ++ eventToken.value ++ " => ".data ++
        joinWith [' '] (vts.map Token.value)), j)

/-- The property loop of `formatAnimation`. -/
def animProps (o : FormatterOptions) (tks : List Token) : Nat → FmtState → Nat →
    Option (FmtState × Nat)
  | 0, _, _ => none
  | f + 1, st, i =>
      if i < tks.length ∧ (tks.getD i defaultToken).type = .IDENTIFIER then
        let propToken := tks.getD i defaultToken
        match collectAnimVal tks f (i + 2) with
        | none => none
        | some (vts, j) =>
            let st2 := emit o st (propToken.value ++ ": ".data ++
              joinWith [' '] (vts.map Token.value))
            if (tks.getD j defaultToken).type = .COMMA then animProps o tks f st2 (j + 1)
            else some (st2, j)
      else some (st, i)

def formatAnimation (o : FormatterOptions) (tks : List Token) (f : Nat) (st : FmtState)
    (start : Nat) : Option (FmtState × Nat) :=
  let triggerToken := tks.getD (start + 1) defaultToken
  let st2 := emit o st ("animate ".data ++ triggerToken.value ++ [':'])
  let st3 := { st2 with indent := st2.indent + 1 }
  match animProps o tks f st3 (start + 3) with
  | none => none
  | some (st4, j) => some ({ st4 with indent := st4.indent - 1 }, j)

def formatRole (o : FormatterOptions) (tks : List Token) (st : FmtState)
    (start : Nat) : FmtState × Nat :=
  (emit o st ("role ".data ++ (tks.getD (start + 1) defaultToken).value), start + 2)

def formatLabel (o : FormatterOptions) (tks : List Token) (st : FmtState)
    (start : Nat) : FmtState × Nat :=
  (emit o st ("label ".data ++ (tks.getD (start + 1) defaultToken).value), start + 2)

/-- The attribute scan of `formatElement`. -/
def fmtAttrs (tks : List Token) : Nat → Nat → Option (List (List Char) × Nat)
  | 0, _ => none
  | f + 1, i =>
      if i < tks.length ∧ (tks.getD i defaultToken).type = .IDENTIFIER ∧
          (tks.getD (i + 1) defaultToken).type = .EQUALS then
        match fmtAttrs tks f (i + 3) with
        | none => none
        | some (as, j) =>
            some (((tks.getD i defaultToken).value ++ ['='] ++
              (tks.getD (i + 2) defaultToken).value) :: as, j)
      else some ([], i)

mutual

def formatElement (o : FormatterOptions) (tks : List Token) : Nat → FmtState → Nat →
    Option (FmtState × Nat)
  | 0, _, _ => none
  | f + 1, st, start =>
      let tagToken := tks.getD start defaultToken
      match fmtAttrs tks f (start + 1) with
      | none => none
      | some (attrs, i) =>
          let attrsStr := if attrs.length > 0 then ' ' :: joinWith [' '] attrs else []
          if (tks.getD i defaultToken).type = .COLON then
            let content := tks.getD (i + 1) defaultToken
            if content.type = .STRING then
              some (emit o st (tagToken.value ++ attrsStr ++ ": ".data ++
                content.value), i + 2)
            else
              let st2 := emit o st (tagToken.value ++ attrsStr ++ [':'])
              let st3 := { st2 with indent := st2.indent + 1 }
              match fmtChildren o tks f st3 (i + 1) with
              | none => none
              | some (st4, j) => some ({ st4 with indent := st4.indent - 1 }, j)
          else some (emit o st (tagToken.value ++ attrsStr), i)

def fmtChildren (o : FormatterOptions) (tks : List Token) : Nat → FmtState → Nat →
    Option (FmtState × Nat)
  | 0, _, _ => none
  | f + 1, st, i =>
      if i < tks.length ∧ (tks.getD i defaultToken).type = .IDENTIFIER then
        match formatElement o tks f st i with
        | none => none
        | some (st2, j) => fmtChildren o tks f st2 j
      else some (st, i)

end

/-- The statement-dispatch loop of `formatComponent`. -/
def fmtCompBody (o : FormatterOptions) (tks : List Token) : Nat → FmtState → Nat →
    Option (FmtState × Nat)
  | 0, _, _ => none
  | f + 1, st, i =>
      if i < tks.length then
        let t := tks.getD i defaultToken
        if t.type = .COMPONENT ∨ t.type = .EOF then some (st, i)
        else if t.type = .STATE then
          match formatState o tks f st i with
          | none => none
          | some (st2, j) => fmtCompBody o tks f st2 j
        else if t.type = .COMPUTED then
          match formatComputed o tks f st i with
          | none => none
          | some (st2, j) => fmtCompBody o tks f st2 j
        else if t.type = .EFFECT then
          match formatEffect o tks f st i with
          | none => none
          | some (st2, j) => fmtCompBody o tks f st2 j
        else if t.type = .ON then
          match formatEventHandler o tks f st i with
          | none => none
          | some (st2, j) => fmtCompBody o tks f st2 j
        else if t.type = .ANIMATE then
          match formatAnimation o tks f st i with
          | none => none
          | some (st2, j) => fmtCompBody o tks f st2 j
        else if t.type = .ROLE then
          match formatRole o tks st i with
          | (st2, j) => fmtCompBody o tks f st2 j
        else if t.type = .LABEL then
          match formatLabel o tks st i with
          | (st2, j) => fmtCompBody o tks f st2 j
        else if t.type = .IDENTIFIER then
          match formatElement o tks f st i with
          | none => none
          | some (st2, j) => fmtCompBody o tks f st2 j
        else fmtCompBody o tks f st (i + 1)
      else some (st, i)

def formatComponent (o : FormatterOptions) (tks : List Token) (f : Nat) (st : FmtState)
    (start : Nat) : Option (FmtState × Nat) :=
  let nameToken := tks.getD (start + 1) defaultToken
  let st2 := emit o st ("component ".data ++ nameToken.value ++ [':'])
  let st3 := { st2 with indent := st2.indent + 1 }
  match fmtCompBody o tks f st3 (start + 2) with
  | none => none
  | some (st4, j) =>
      let st5 := { st4 with indent := st4.indent - 1 }
      some (emit o st5 [], j)

/-- The top-level token walk of `format`. -/
def fmtTop (o : FormatterOptions) (tks : List Token) : Nat → FmtState → Nat →
    Option FmtState
  | 0, _, _ => none
  | f + 1, st, i =>
      if i < tks.length then
        let t := tks.getD i defaultToken
        if t.type = .EOF then some st
        else if t.type = .COMPONENT then
          match formatComponent o tks f st i with
          | none => none
          | some (st2, j) => fmtTop o tks f st2 j
        else fmtTop o tks f st (i + 1)
      else some st

/-- `AuraFormatter.format`: returns the source untouched when the lexer
reports errors, otherwise re-emits the token stream. -/
def format (o : FormatterOptions) (f : Nat) (source : List Char) : Option (List Char) :=
  let lx := tokenize source
  if lx.errors.length > 0 then some source
  else
    match fmtTop o lx.tokens f {} 0 with
    | none => none
    | some st =>
        let result := joinWith ['\n'] st.output
        some (if o.insertFinalNewline ∧ ¬ result.getLast? = some '\n' then
          result ++ ['\n'] else result)

def C8src : List Char := "component A:\n  div: \"hi\"\n".data

def C8once : List Char := "component A:\n  div: hi\n".data

def C8twice : List Char := "component A:\n  div:\n    hi\n".data

/-- Claim C8: `format` is NOT idempotent on syntactically valid input.
The source `component A:` / `  div: "hi"` lexes with no error and parses
to a Program with no parser error, yet formatting once emits the string
content without its quotes (`div: hi`) — `formatElement` writes the raw
STRING token value, which the lexer stores unquoted — and formatting the
result again re-lexes `hi` as an identifier, turning it into a nested
child element (`div:` / `    hi`), so `format (format x) ≠ format x`. -/
theorem claim_C8 :
    (tokenize C8src).errors = [] ∧
    ((parse 99 (tokenize C8src).tokens).map (fun r => (r.1.isSome, r.2))
      = some (true, [])) ∧
    format {} 99 C8src = some C8once ∧
    format {} 99 C8once = some C8twice ∧
    C8twice ≠ C8once :=
  ⟨rfl, rfl, rfl, rfl, by decide⟩

end Aura
